import Mathlib

/-!
# Verification of the BSRN fixed-format parser and assembly core

A shallow embedding, in Lean 4, of the logical-record framing engine and the
per-record decoders of `solardata/bsrn/parser.py`, together with the parts of
`solardata/bsrn/core.py` (`load_data`) and `solardata/bsrn/util.py`
(`time_interpolation`) that post-process the primary data record.

Modelling conventions, used throughout:

* A text line is a `List Char` (the Python code works on `str` lines that were
  right-stripped when the file was read).
* Python `float` values coming out of the numeric data records are modelled as
  `Option ℚ`: `none` stands for NaN (the "missing" marker produced by failed
  parses and by sentinel translation), `some q` for an ordinary finite value.
  All numeric tokens in this format are plain decimal literals, which `float`
  parses exactly, so exact rationals are a faithful model of every comparison
  the code performs.
* Fallible Python code (raised exceptions) is modelled with `Except ParseErr`.
  Downstream the callers only distinguish success from failure (any exception
  is either re-raised or makes the record be skipped), so the different Python
  exception classes are collapsed into one small error type.
-/

set_option maxRecDepth 4000

/- The arithmetic on `ℚ` used by the embedding must evaluate inside `decide`
proofs about concrete inputs; these library definitions are only marked
irreducible for elaboration performance. -/
attribute [local semireducible] Rat.mul Rat.add Rat.sub Rat.inv Rat.ofScientific

namespace BSRN

/-- Python exceptions observable from the parsers.  `parsingError` stands for
`BSRNParsingError`, `valueError` for `ValueError`, `indexError` for
`IndexError` (and, in the one code path where an unbound local is read inside
an exception handler, the `NameError` that replaces the re-raised error --
either way an exception propagates). -/
inductive ParseErr where
  | parsingError : ParseErr
  | valueError : ParseErr
  | indexError : ParseErr
  deriving DecidableEq, Repr, Inhabited

deriving instance DecidableEq for Except

/-- The whitespace characters matched by Python's `\s` / `str.split()` /
`str.strip()` (ASCII range, which is all this format contains). -/
def isWsChar (c : Char) : Bool :=
  c = ' ' || c = '\t' || c = '\n' || c = '\x0d' || c = '\x0c' || c = '\x0b'

/-- Python `str.strip()`: remove leading and trailing whitespace. -/
def stripWs (l : List Char) : List Char :=
  ((l.dropWhile isWsChar).reverse.dropWhile isWsChar).reverse

/-- Helper for `splitWs`: accumulates the current token (reversed). -/
def splitWsAux : List Char → List Char → List (List Char)
  | [], cur => if cur = [] then [] else [cur.reverse]
  | c :: rest, cur =>
    if isWsChar c then
      if cur = [] then splitWsAux rest [] else cur.reverse :: splitWsAux rest []
    else
      splitWsAux rest (c :: cur)

/-- Python `str.split()` with no argument: split on runs of whitespace,
discarding empty tokens. -/
def splitWs (l : List Char) : List (List Char) :=
  splitWsAux l []

/-- Numeric value of a list of decimal digit characters (most significant
first), as used by Python's number parsing. -/
def digitsVal (l : List Char) : ℕ :=
  l.foldl (fun acc c => 10 * acc + (c.toNat - 48)) 0

/-- `parser.parse_float`: `float(x)` on a token, with any parse failure mapped
to NaN (`none`).  The BSRN numeric records only ever contain optionally signed
plain decimal literals, which is the grammar modelled here; every other token
is a parse failure, i.e. NaN, exactly as in the source. -/
def parse_float (tok : List Char) : Option ℚ :=
  let (sgn, t) : ℚ × List Char :=
    match tok with
    | '-' :: r => (-1, r)
    | '+' :: r => (1, r)
    | r => (1, r)
  match t.splitOn '.' with
  | [a] =>
      if a ≠ [] ∧ a.all Char.isDigit then some (sgn * (digitsVal a : ℚ)) else none
  | [a, b] =>
      if (a ++ b) ≠ [] ∧ (a ++ b).all Char.isDigit then
        some (sgn * ((digitsVal a : ℚ) + (digitsVal b : ℚ) / (10 : ℚ) ^ b.length))
      else none
  | _ => none

/-- Python `int(x)` on a stripped field: optionally signed nonempty digit
string; anything else raises `ValueError`. -/
def parseIntStrict (tok : List Char) : Except ParseErr ℤ :=
  match tok with
  | '-' :: r =>
      if r ≠ [] ∧ r.all Char.isDigit then .ok (-(digitsVal r : ℤ)) else .error .valueError
  | '+' :: r =>
      if r ≠ [] ∧ r.all Char.isDigit then .ok (digitsVal r : ℤ) else .error .valueError
  | r =>
      if r ≠ [] ∧ r.all Char.isDigit then .ok (digitsVal r : ℤ) else .error .valueError

/-- Python `float(x)` on a stripped field where failure raises `ValueError`
(used by the metadata decoders, unlike `parse_float` which returns NaN). -/
def parseFloatStrict (tok : List Char) : Except ParseErr ℚ :=
  match parse_float tok with
  | some q => .ok q
  | none => .error .valueError

/-- `parser.Translate(missing)` applied to an integer field: the sentinel
value becomes `None`. -/
def translateInt (missing : ℤ) (v : ℤ) : Option ℤ :=
  if v = missing then none else some v

/-- `parser.Translate(missing)` applied to a float field. -/
def translateRat (missing : ℚ) (v : ℚ) : Option ℚ :=
  if v = missing then none else some v

/-! ## Record-Bound Scanner (`parser.find_logical_record_bounds`) -/

/-- One marker line: the regex `^\s*\*[CU]\d\d\d\d\s*$` from
`find_logical_record_bounds`.  A line matches exactly when its stripped form
is `*`, then `C` or `U`, then four decimal digits. -/
def isRecordMarker (line : List Char) : Bool :=
  match stripWs line with
  | '*' :: f :: rest =>
      (f = 'C' || f = 'U') && rest.length = 4 && rest.all Char.isDigit
  | _ => false

/-- The `for n, line in enumerate(txt_data)` scan collecting
`(line.strip(), n)` for every marker line, in file order. -/
def scanMarkers : List (List Char) → ℕ → List (List Char × ℕ)
  | [], _ => []
  | line :: rest, n =>
    if isRecordMarker line then
      (stripWs line, n) :: scanMarkers rest (n + 1)
    else
      scanMarkers rest (n + 1)

/-- `logical_records_list` of `find_logical_record_bounds`. -/
def markerList (txt_data : List (List Char)) : List (List Char × ℕ) :=
  scanMarkers txt_data 0

/-- The construction of `logical_records_limits`: one entry per distinct
4-digit id (`stamp[2:]`), first occurrence wins; entries are
`(id, stamp, first_line)` in first-seen order.  `seen` is the key set of the
dictionary built so far. -/
def firstOccurrences : List (List Char × ℕ) → List (List Char) →
    List (List Char × List Char × ℕ)
  | [], _ => []
  | (stamp, n) :: rest, seen =>
    let i := stamp.drop 2
    if i ∈ seen then
      firstOccurrences rest seen
    else
      (i, stamp, n) :: firstOccurrences rest (i :: seen)

/-- One entry of the mapping returned by `find_logical_record_bounds`. -/
structure LRBound where
  id : List Char
  header : List Char
  has_changed : Bool
  first_line : ℕ
  last_line : ℕ
  deriving DecidableEq, Repr, Inhabited

/-- `parser.find_logical_record_bounds`.  For each first-seen id the Python
code rescans `logical_records_list` for the first stamp with that id (index
`k`), and sets `last_line` to the line before the next marker in the full
occurrence order, or to `len(txt_data)` when `k` is the last index. -/
def find_logical_record_bounds (txt_data : List (List Char)) : List LRBound :=
  let ms := markerList txt_data
  (firstOccurrences ms []).map (fun occ =>
    let k := ms.findIdx (fun p => p.1.drop 2 = occ.1)
    let last_line :=
      if k < ms.length - 1 then ((ms[k + 1]?).getD ([], 0)).2 - 1
      else txt_data.length
    { id := occ.1
      header := occ.2.1
      has_changed := occ.2.1.get? 1 = some 'C'
      first_line := occ.2.2
      last_line := last_line })

/-! ## Primary data record decoder (`parser.parse_logical_record_0100`) -/

/-- The float values of one whitespace-tokenised line
(`[parse_float(e) for e in txt_data[nline].split()]`). -/
def lineValues (line : List Char) : List (Option ℚ) :=
  (splitWs line).map parse_float

/-- The sample-collection `while` loop of `parse_logical_record_0100`,
expressed over the lines after the header (the loop starts at `nline = 0`
pointing at the record marker and always pre-increments before reading, so it
consumes `txt_data[1:]`; the guard `nline < len(txt_data) - 1` holds exactly
when an unread line remains).

A first line whose token count is not 10 raises `ValueError`, which is caught:
one line is consumed and the loop continues.  After a good first line, a
second line is read; reading past the end of the list is an uncaught
`IndexError`, and a second line whose token count is not 11 is a caught
`ValueError` consuming both lines.  Only when both lines are good is the pair
appended to `line_data_1`/`line_data_2`. -/
def loop0100 : List (List Char) →
    Except ParseErr (List (List (Option ℚ)) × List (List (Option ℚ)))
  | [] => .ok ([], [])
  | l1 :: rest =>
    if (lineValues l1).length = 10 then
      match rest with
      | [] => .error .indexError
      | l2 :: rest2 =>
        if (lineValues l2).length = 11 then
          match loop0100 rest2 with
          | .ok (d1, d2) => .ok (lineValues l1 :: d1, lineValues l2 :: d2)
          | .error e => .error e
        else loop0100 rest2
    else loop0100 rest

/-- Column `i` of a stacked row list (`np.stack(rows).T`; all rows of one
stack share the same checked length, so positional indexing is total on the
rows actually used). -/
def column (rows : List (List (Option ℚ))) (i : ℕ) : List (Option ℚ) :=
  rows.map (fun r => r.getD i none)

/-- Sentinel translation `contents[v][contents[v] == sentinel] = np.nan`
applied elementwise to one decoded array. -/
def sentinelToNan (sentinel : ℚ) (arr : List (Option ℚ)) : List (Option ℚ) :=
  arr.map (fun v => if v = some sentinel then none else v)

/-- numpy `.astype(int)` on a value of a float array: truncation toward zero.
The cast of NaN is unspecified behaviour in numpy; it is modelled as `none`
(no claim exercises it: `day`/`minute` sentinels do not exist in this
format). -/
def floatToInt (v : Option ℚ) : Option ℤ :=
  v.map (fun q => q.num.tdiv (q.den : ℤ))

/-- The decoded contents of logical record 0100 (the dictionary built by
`parse_logical_record_0100`, after the `day`/`minute` integer cast, the
`divmod(minute, 60)` hour/minute split and sentinel translation). -/
structure Contents0100 where
  day : List (Option ℤ)
  hour : List (Option ℤ)
  minute : List (Option ℤ)
  global_horizontal : List (Option ℚ)
  global_horizontal_std : List (Option ℚ)
  global_horizontal_min : List (Option ℚ)
  global_horizontal_max : List (Option ℚ)
  direct_normal : List (Option ℚ)
  direct_normal_std : List (Option ℚ)
  direct_normal_min : List (Option ℚ)
  direct_normal_max : List (Option ℚ)
  diffuse_horizontal : List (Option ℚ)
  diffuse_horizontal_std : List (Option ℚ)
  diffuse_horizontal_min : List (Option ℚ)
  diffuse_horizontal_max : List (Option ℚ)
  downward_longwave : List (Option ℚ)
  downward_longwave_std : List (Option ℚ)
  downward_longwave_min : List (Option ℚ)
  downward_longwave_max : List (Option ℚ)
  air_temperature : List (Option ℚ)
  relative_humidity : List (Option ℚ)
  atmospheric_pressure : List (Option ℚ)
  deriving DecidableEq, Repr, Inhabited

/-- `parser.parse_logical_record_0100`.  After the collection loop,
`np.stack` on an empty `line_data_1` raises `ValueError`; otherwise the
transposed columns are named, `day`/`minute` are cast to int,
`hour, minute = np.divmod(minute, 60)` (floor semantics, as numpy), and the
two sentinel-translation passes run: `-999` on the absolute-value channels
(including `atmospheric_pressure`) and `-99.9` on the standard-deviation
channels plus `air_temperature` and `relative_humidity`. -/
def parse_logical_record_0100 (txt_data : List (List Char)) :
    Except ParseErr Contents0100 :=
  match loop0100 (txt_data.drop 1) with
  | .error e => .error e
  | .ok (d1, d2) =>
    if d1 = [] then .error .valueError
    else
      let minute0 := (column d1 1).map floatToInt
      .ok {
        day := (column d1 0).map floatToInt
        hour := minute0.map (fun v => v.map (fun m => Int.fdiv m 60))
        minute := minute0.map (fun v => v.map (fun m => Int.fmod m 60))
        global_horizontal := sentinelToNan (-999) (column d1 2)
        global_horizontal_std := sentinelToNan (-999/10) (column d1 3)
        global_horizontal_min := sentinelToNan (-999) (column d1 4)
        global_horizontal_max := sentinelToNan (-999) (column d1 5)
        direct_normal := sentinelToNan (-999) (column d1 6)
        direct_normal_std := sentinelToNan (-999/10) (column d1 7)
        direct_normal_min := sentinelToNan (-999) (column d1 8)
        direct_normal_max := sentinelToNan (-999) (column d1 9)
        diffuse_horizontal := sentinelToNan (-999) (column d2 0)
        diffuse_horizontal_std := sentinelToNan (-999/10) (column d2 1)
        diffuse_horizontal_min := sentinelToNan (-999) (column d2 2)
        diffuse_horizontal_max := sentinelToNan (-999) (column d2 3)
        downward_longwave := sentinelToNan (-999) (column d2 4)
        downward_longwave_std := sentinelToNan (-999/10) (column d2 5)
        downward_longwave_min := sentinelToNan (-999) (column d2 6)
        downward_longwave_max := sentinelToNan (-999) (column d2 7)
        air_temperature := sentinelToNan (-999/10) (column d2 8)
        relative_humidity := sentinelToNan (-999/10) (column d2 9)
        atmospheric_pressure := sentinelToNan (-999) (column d2 10) }

/-! ## Field Extractor (`parser.parse`) and the fixed-width patterns -/

/-- One atom of a positional regex pattern as used by `parser.parse`: a
literal separator character, a fixed-width capture group `(.{n})`, or the
final free capture group `(.*)` (which, in every pattern of the source,
occurs only in final position). -/
inductive PatItem where
  | lit : Char → PatItem
  | grp : ℕ → PatItem
  | rest : PatItem
  deriving DecidableEq, Repr

/-- Anchored match of a positional pattern against a line (`re.match`): `.`
matches any character (the lines contain no newlines), a fixed-width group
needs that many characters, and trailing unmatched input is allowed (none of
the source patterns ends in `$`; the ones ending in `(.*)` consume the whole
remainder).  Returns the list of captured groups. -/
def matchPat : List PatItem → List Char → Option (List (List Char))
  | [], _ => some []
  | .lit c :: ps, x :: xs => if x = c then matchPat ps xs else none
  | .lit _ :: _, [] => none
  | .grp n :: ps, xs =>
      if n ≤ xs.length then (matchPat ps (xs.drop n)).map (xs.take n :: ·)
      else none
  | .rest :: ps, xs => (matchPat ps []).map (xs :: ·)

/-- `parser.parse` without formatter/missing arguments: match the pattern,
raising `BSRNParsingError` on mismatch, and strip every captured group.
(The `formatter` and `missing` arguments are applied by the individual
callers below, mirroring each call site.) -/
def parseFields (pat : List PatItem) (line : List Char) :
    Except ParseErr (List (List Char)) :=
  match matchPat pat line with
  | none => .error .parsingError
  | some gs => .ok (gs.map stripWs)

/-- `' (.{2}) (.{2}) (.{2}) (.)'` -/
def patDayHourMinuteFlag : List PatItem :=
  [.lit ' ', .grp 2, .lit ' ', .grp 2, .lit ' ', .grp 2, .lit ' ', .grp 1]

/-! ## Ozone-equipment decoder (`parser.parse_logical_record_0006`) -/

/-- The decoded contents of logical record 0006. -/
structure Contents0006 where
  ozone_changed_on_day : Option ℤ
  ozone_changed_on_hour : Option ℤ
  ozone_changed_on_minute : Option ℤ
  ozone_operating : Bool
  ozone_manufacturer : List Char
  ozone_location : List Char
  ozone_distance_km : ℤ
  ozone_id : List Char
  ozone_remarks : List Char
  deriving DecidableEq, Repr, Inhabited

/-- `'(.{30}) (.{25}) (.{3}) (.*)'` -/
def pat0006Line2 : List PatItem :=
  [.grp 30, .lit ' ', .grp 25, .lit ' ', .grp 3, .lit ' ', .rest]

/-- `parser.parse_logical_record_0006`, step by step in source order: the
3-line length contract check, the change-date line, the
manufacturer/location/distance/id line, and finally
`contents['ozone_remarks'] = txt_data[3].strip()` — an access to a fourth
line, which the length contract just excluded (`txt_data[3]` raises
`IndexError` whenever the guard passed). -/
def parse_logical_record_0006 (txt_data : List (List Char)) :
    Except ParseErr Contents0006 :=
  if txt_data.length ≠ 3 then .error .parsingError
  else
    match txt_data.get? 1 with
    | none => .error .indexError
    | some line1 =>
      match parseFields patDayHourMinuteFlag line1 with
      | .error e => .error e
      | .ok m1 =>
        match parseIntStrict (m1.getD 0 []) with
        | .error e => .error e
        | .ok dday =>
          match parseIntStrict (m1.getD 1 []) with
          | .error e => .error e
          | .ok dhour =>
            match parseIntStrict (m1.getD 2 []) with
            | .error e => .error e
            | .ok dminute =>
              match txt_data.get? 2 with
              | none => .error .indexError
              | some line2 =>
                match parseFields pat0006Line2 line2 with
                | .error e => .error e
                | .ok m2 =>
                  match parseIntStrict (m2.getD 2 []) with
                  | .error e => .error e
                  | .ok dist =>
                    match txt_data.get? 3 with
                    | none => .error .indexError
                    | some line3 =>
                      .ok {
                        ozone_changed_on_day := translateInt (-1) dday
                        ozone_changed_on_hour := translateInt (-1) dhour
                        ozone_changed_on_minute := translateInt (-1) dminute
                        ozone_operating := m1.getD 3 [] = ['Y']
                        ozone_manufacturer := m2.getD 0 []
                        ozone_location := m2.getD 1 []
                        ozone_distance_km := dist
                        ozone_id := m2.getD 3 []
                        ozone_remarks := stripWs line3 }

/-! ## Radiation-instrument decoder (`parser.parse_logical_record_0008`) -/

/-- The decoded attributes of one radiation instrument (one loop iteration of
`parse_logical_record_0008`). -/
structure RadInstr where
  changed_on_day : Option ℤ
  changed_on_hour : Option ℤ
  changed_on_minute : Option ℤ
  operating : Bool
  manufacturer : List Char
  model : List Char
  serial_number : List Char
  purchase_date : List Char
  wrmc_id : ℤ
  remarks : List Char
  pyrgeometer_body_compensation_code : Option ℤ
  pyrgeometer_dome_compensation_code : Option ℤ
  wavelength_of_band_1 : Option ℚ
  bandwidth_of_band_1 : Option ℚ
  wavelength_of_band_2 : Option ℚ
  bandwidth_of_band_2 : Option ℚ
  wavelength_of_band_3 : Option ℚ
  bandwidth_of_band_3 : Option ℚ
  max_xx_zenith_angle_direct_degrees : Option ℤ
  min_xx_spectral_instrument : Option ℤ
  location_of_calibration : List Char
  person_doing_calibration : List Char
  start_of_calibration_period_of_band_1 : List Char
  end_of_calibration_period_of_band_1 : List Char
  number_of_comparisons_of_band_1 : Option ℤ
  mean_calibration_coefficient_of_band_1 : Option ℚ
  standard_error_of_calibration_coefficient_of_band_1 : Option ℚ
  start_of_calibration_period_of_band_2 : List Char
  end_of_calibration_period_of_band_2 : List Char
  number_of_comparisons_of_band_2 : Option ℤ
  mean_calibration_coefficient_of_band_2 : Option ℚ
  standard_error_of_calibration_coefficient_of_band_2 : Option ℚ
  start_of_calibration_period_of_band_3 : List Char
  end_of_calibration_period_of_band_3 : List Char
  number_of_comparisons_of_band_3 : Option ℤ
  mean_calibration_coefficient_of_band_3 : Option ℚ
  standard_error_of_calibration_coefficient_of_band_3 : Option ℚ
  calibration_remark_1 : List Char
  calibration_remark_2 : List Char
  deriving DecidableEq, Repr, Inhabited

/-- `'(.{30}) (.{15}) (.{18}) (.{8}) (.*)'` -/
def patInstrIdentity : List PatItem :=
  [.grp 30, .lit ' ', .grp 15, .lit ' ', .grp 18, .lit ' ', .grp 8, .lit ' ', .rest]

/-- `2 * ' (.{2})' + 6 * ' (.{7})' + 2 * ' (.{2})'` -/
def patInstrCodes : List PatItem :=
  [.lit ' ', .grp 2, .lit ' ', .grp 2,
   .lit ' ', .grp 7, .lit ' ', .grp 7, .lit ' ', .grp 7,
   .lit ' ', .grp 7, .lit ' ', .grp 7, .lit ' ', .grp 7,
   .lit ' ', .grp 2, .lit ' ', .grp 2]

/-- `'(.{30}) (.*)'` -/
def patCalibrationLocation : List PatItem :=
  [.grp 30, .lit ' ', .rest]

/-- `'(.{8}) (.{8}) (.{2}) (.{12}) (.{12})'` -/
def patCalibrationBand : List PatItem :=
  [.grp 8, .lit ' ', .grp 8, .lit ' ', .grp 2, .lit ' ', .grp 12, .lit ' ', .grp 12]

/-- One calibration-period block line (bands 1-3 are parsed identically):
fixed-width fields, `int()` on the comparison count and `float()` on the two
coefficients, each with a `Translate(-1)` sentinel. -/
def parseCalibrationBand (line : List Char) :
    Except ParseErr (List Char × List Char × Option ℤ × Option ℚ × Option ℚ) := do
  let m ← parseFields patCalibrationBand line
  let n ← parseIntStrict (m.getD 2 [])
  let mean ← parseFloatStrict (m.getD 3 [])
  let se ← parseFloatStrict (m.getD 4 [])
  pure (m.getD 0 [], m.getD 1 [], translateInt (-1) n,
        translateRat (-1) mean, translateRat (-1) se)

/-- The body of one `while` iteration of `parse_logical_record_0008`: the ten
consecutive lines of one instrument block, in source order (change date,
identity, remarks, compensation/band codes, calibration location, three
calibration-period blocks, and two calibration-remark lines). -/
def parseInstrBlock10 (l1 l2 l3 l4 l5 l6 l7 l8 l9 l10 : List Char) :
    Except ParseErr RadInstr := do
  let m1 ← parseFields patDayHourMinuteFlag l1
  let cday ← parseIntStrict (m1.getD 0 [])
  let chour ← parseIntStrict (m1.getD 1 [])
  let cminute ← parseIntStrict (m1.getD 2 [])
  let m2 ← parseFields patInstrIdentity l2
  let wrmc ← parseIntStrict (m2.getD 4 [])
  let m4 ← parseFields patInstrCodes l4
  let body ← parseIntStrict (m4.getD 0 [])
  let dome ← parseIntStrict (m4.getD 1 [])
  let wl1 ← parseFloatStrict (m4.getD 2 [])
  let bw1 ← parseFloatStrict (m4.getD 3 [])
  let wl2 ← parseFloatStrict (m4.getD 4 [])
  let bw2 ← parseFloatStrict (m4.getD 5 [])
  let wl3 ← parseFloatStrict (m4.getD 6 [])
  let bw3 ← parseFloatStrict (m4.getD 7 [])
  let zen ← parseIntStrict (m4.getD 8 [])
  let spc ← parseIntStrict (m4.getD 9 [])
  let m5 ← parseFields patCalibrationLocation l5
  let b1 ← parseCalibrationBand l6
  let b2 ← parseCalibrationBand l7
  let b3 ← parseCalibrationBand l8
  pure {
    changed_on_day := translateInt (-1) cday
    changed_on_hour := translateInt (-1) chour
    changed_on_minute := translateInt (-1) cminute
    operating := m1.getD 3 [] = ['Y']
    manufacturer := m2.getD 0 []
    model := m2.getD 1 []
    serial_number := m2.getD 2 []
    purchase_date := m2.getD 3 []
    wrmc_id := wrmc
    remarks := stripWs l3
    pyrgeometer_body_compensation_code := translateInt (-1) body
    pyrgeometer_dome_compensation_code := translateInt (-1) dome
    wavelength_of_band_1 := translateRat (-1) wl1
    bandwidth_of_band_1 := translateRat (-1) bw1
    wavelength_of_band_2 := translateRat (-1) wl2
    bandwidth_of_band_2 := translateRat (-1) bw2
    wavelength_of_band_3 := translateRat (-1) wl3
    bandwidth_of_band_3 := translateRat (-1) bw3
    max_xx_zenith_angle_direct_degrees := translateInt (-1) zen
    min_xx_spectral_instrument := translateInt (-1) spc
    location_of_calibration := m5.getD 0 []
    person_doing_calibration := m5.getD 1 []
    start_of_calibration_period_of_band_1 := b1.1
    end_of_calibration_period_of_band_1 := b1.2.1
    number_of_comparisons_of_band_1 := b1.2.2.1
    mean_calibration_coefficient_of_band_1 := b1.2.2.2.1
    standard_error_of_calibration_coefficient_of_band_1 := b1.2.2.2.2
    start_of_calibration_period_of_band_2 := b2.1
    end_of_calibration_period_of_band_2 := b2.2.1
    number_of_comparisons_of_band_2 := b2.2.2.1
    mean_calibration_coefficient_of_band_2 := b2.2.2.2.1
    standard_error_of_calibration_coefficient_of_band_2 := b2.2.2.2.2
    start_of_calibration_period_of_band_3 := b3.1
    end_of_calibration_period_of_band_3 := b3.2.1
    number_of_comparisons_of_band_3 := b3.2.2.1
    mean_calibration_coefficient_of_band_3 := b3.2.2.2.1
    standard_error_of_calibration_coefficient_of_band_3 := b3.2.2.2.2
    calibration_remark_1 := stripWs l9
    calibration_remark_2 := stripWs l10 }

/-- One instrument block read off the front of the remaining lines.  Ten
consecutive lines are consumed; running out of lines mid-block is the
uncaught `IndexError` of the successive `txt_data[nline]` accesses.  (The
Python code may raise a pattern error before reaching the missing line; the
callers observe only that an exception was raised, so the error values are
not distinguished here.) -/
def parseInstrBlock : List (List Char) →
    Except ParseErr (RadInstr × List (List Char))
  | l1 :: l2 :: l3 :: l4 :: l5 :: l6 :: l7 :: l8 :: l9 :: l10 :: rest =>
      (parseInstrBlock10 l1 l2 l3 l4 l5 l6 l7 l8 l9 l10).map (fun e => (e, rest))
  | _ => .error .indexError

/-- Python-dict assignment `contents[key] = ...`: overwrite in place if the
key exists, else append.  The string key
`'radiation_instrument_{wrmc_id}'` is in bijection with the decimal
rendering of the id, so the dictionary is modelled as keyed by the id
itself. -/
def dictInsert (l : List (ℤ × RadInstr)) (k : ℤ) (v : RadInstr) :
    List (ℤ × RadInstr) :=
  if l.any (fun p => p.1 = k) then l.map (fun p => if p.1 = k then (k, v) else p)
  else l ++ [(k, v)]

/-- The `while nline < len(txt_data)` loop of `parse_logical_record_0008`:
as long as lines remain, read one 10-line instrument block and store it under
its WRMC id. -/
def loop0008 : List (List Char) → List (ℤ × RadInstr) →
    Except ParseErr (List (ℤ × RadInstr))
  | [], acc => .ok acc
  | l1 :: l2 :: l3 :: l4 :: l5 :: l6 :: l7 :: l8 :: l9 :: l10 :: rest, acc =>
    match parseInstrBlock10 l1 l2 l3 l4 l5 l6 l7 l8 l9 l10 with
    | .error e => .error e
    | .ok e => loop0008 rest (dictInsert acc e.wrmc_id e)
  | _, _ => .error .indexError

/-- `parser.parse_logical_record_0008`: the instrument loop over the lines
after the header marker. -/
def parse_logical_record_0008 (txt_data : List (List Char)) :
    Except ParseErr (List (ℤ × RadInstr)) :=
  loop0008 (txt_data.drop 1) []

/-- Right-pad a field to an exact fixed width with spaces (used only to build
concrete test lines). -/
def padR (s : List Char) (n : ℕ) : List Char :=
  s ++ List.replicate (n - s.length) ' '

/-- A concrete well-formed 10-line instrument block for a given WRMC id
digit string (used by the record-0008 witnesses). -/
def exInstrBlock (wrmc : List Char) : List (List Char) :=
  [" -1 -1 -1 N".toList,
   padR "Kipp".toList 30 ++ [' '] ++ padR "CM21".toList 15 ++ [' ']
     ++ padR "sn-1".toList 18 ++ [' '] ++ padR "19990101".toList 8 ++ [' '] ++ wrmc,
   "no remarks".toList,
   " -1 -1".toList ++ ([' '] ++ padR "-1.".toList 7) ++ ([' '] ++ padR "-1.".toList 7)
     ++ ([' '] ++ padR "-1.".toList 7) ++ ([' '] ++ padR "-1.".toList 7)
     ++ ([' '] ++ padR "-1.".toList 7) ++ ([' '] ++ padR "-1.".toList 7)
     ++ " -1 -1".toList,
   padR "somewhere".toList 30 ++ [' '] ++ "someone".toList,
   padR "19990101".toList 8 ++ [' '] ++ padR "19990201".toList 8 ++ [' ']
     ++ "-1".toList ++ [' '] ++ padR "-1.".toList 12 ++ [' '] ++ padR "-1.".toList 12,
   padR "19990101".toList 8 ++ [' '] ++ padR "19990201".toList 8 ++ [' ']
     ++ "-1".toList ++ [' '] ++ padR "-1.".toList 12 ++ [' '] ++ padR "-1.".toList 12,
   padR "19990101".toList 8 ++ [' '] ++ padR "19990201".toList 8 ++ [' ']
     ++ "-1".toList ++ [' '] ++ padR "-1.".toList 12 ++ [' '] ++ padR "-1.".toList 12,
   "calibration remark one".toList,
   "calibration remark two".toList]

/-! ## Assembly core (`core.load_data`, data-record section) -/

/-- Whether `pat` occurs as a contiguous substring (Python `in`). -/
def containsSub : List Char → List Char → Bool
  | pat, [] => pat.isEmpty
  | pat, c :: rest => pat.isPrefixOf (c :: rest) || containsSub pat rest

/-- Python `str.replace(pat, rep)` for a nonempty pattern: replace all
non-overlapping occurrences left to right.  `fuel` bounds the recursion by
the length of the remaining text (each step consumes at least one
character). -/
def replaceSubAux (pat rep : List Char) : ℕ → List Char → List Char
  | _, [] => []
  | 0, l => l
  | fuel + 1, c :: rest =>
    if pat ≠ [] ∧ pat.isPrefixOf (c :: rest) then
      rep ++ replaceSubAux pat rep fuel ((c :: rest).drop pat.length)
    else
      c :: replaceSubAux pat rep fuel rest

/-- Python `str.replace(pat, rep)` (the source only calls it with nonempty
patterns). -/
def replaceSub (pat rep l : List Char) : List Char :=
  replaceSubAux pat rep l.length l

/-- The long-name to short-name mapping of the `translate` helper in
`core.load_data`, in its Python dict insertion order. -/
def renameMapping : List (List Char × List Char) :=
  [("global_horizontal".toList, "ghi".toList),
   ("direct_normal".toList, "dni".toList),
   ("diffuse_horizontal".toList, "dif".toList),
   ("downward_longwave".toList, "dlw".toList),
   ("air_temperature".toList, "tair".toList),
   ("relative_humidity".toList, "rh".toList),
   ("atmospheric_pressure".toList, "pressure".toList)]

/-- The `translate(varname)` helper of `core.load_data`: the first mapping
entry whose long name occurs inside `varname` is substituted; if none
occurs, the name passes through unchanged. -/
def translateVarname (varname : List Char) : List Char :=
  (renameMapping.foldr
    (fun p next v => if containsSub p.1 v then replaceSub p.1 p.2 v else next v)
    id) varname

/-- The filter
`lrcontents = {k: v for k, v in lrcontents.items() if not np.all(np.isnan(v))}`
applied to the decoded float arrays of a data record: an array all of whose
entries are NaN is dropped (`np.all` of an empty array is also true, so empty
arrays would be dropped too, exactly as in numpy). -/
def drop_all_nan (l : List (List Char × List (Option ℚ))) :
    List (List Char × List (Option ℚ)) :=
  l.filter (fun p => !(p.2.all (fun v => v.isNone)))

/-- The float-array entries of the decoded record-0100 dictionary, in the
order the source builds them (the integer arrays `day`/`hour`/`minute` are
also in the Python dict at filter time, but `np.isnan` of an integer array
is all-false, so they always survive the filter and are then popped before
assembly). -/
def channelPairs (c : Contents0100) : List (List Char × List (Option ℚ)) :=
  [("global_horizontal".toList, c.global_horizontal),
   ("global_horizontal_std".toList, c.global_horizontal_std),
   ("global_horizontal_min".toList, c.global_horizontal_min),
   ("global_horizontal_max".toList, c.global_horizontal_max),
   ("direct_normal".toList, c.direct_normal),
   ("direct_normal_std".toList, c.direct_normal_std),
   ("direct_normal_min".toList, c.direct_normal_min),
   ("direct_normal_max".toList, c.direct_normal_max),
   ("diffuse_horizontal".toList, c.diffuse_horizontal),
   ("diffuse_horizontal_std".toList, c.diffuse_horizontal_std),
   ("diffuse_horizontal_min".toList, c.diffuse_horizontal_min),
   ("diffuse_horizontal_max".toList, c.diffuse_horizontal_max),
   ("downward_longwave".toList, c.downward_longwave),
   ("downward_longwave_std".toList, c.downward_longwave_std),
   ("downward_longwave_min".toList, c.downward_longwave_min),
   ("downward_longwave_max".toList, c.downward_longwave_max),
   ("air_temperature".toList, c.air_temperature),
   ("relative_humidity".toList, c.relative_humidity),
   ("atmospheric_pressure".toList, c.atmospheric_pressure)]

/-- The series-building loop over a kept record-0100 dictionary: the
`_min`/`_max` statistic columns are skipped (`utc_times` and `description`
are kept out of this association list to begin with), and each remaining
variable is stored under its translated short name. -/
def series_of (kept : List (List Char × List (Option ℚ))) :
    List (List Char × List (Option ℚ)) :=
  kept.filterMap (fun p =>
    if ("_min".toList.isSuffixOf p.1 || "_max".toList.isSuffixOf p.1) then none
    else some (translateVarname p.1, p.2))

/-- Gregorian month length, as validated by `datetime.datetime`. -/
def daysInMonth (year month : ℤ) : ℤ :=
  if month = 2 then
    if year % 4 = 0 ∧ (year % 100 ≠ 0 ∨ year % 400 = 0) then 29 else 28
  else if month = 4 ∨ month = 6 ∨ month = 9 ∨ month = 11 then 30
  else 31

/-- The argument validation of `datetime.datetime(year, month, day, hour,
minute)`: out-of-range fields raise `ValueError` (in particular any hour
above 23, the corruption pattern record 0100 is checked for). -/
def datetime_ok (year month day hour minute : ℤ) : Bool :=
  1 ≤ year && year ≤ 9999 && 1 ≤ month && month ≤ 12 &&
  1 ≤ day && day ≤ daysInMonth year month &&
  0 ≤ hour && hour ≤ 23 && 0 ≤ minute && minute ≤ 59

/-- The `utc_times` list comprehension of `core.load_data`:
`datetime(year, month, day[k], hour[k], minute[k])` for every sample `k`.
The first invalid timestamp raises `ValueError`.  A `day`/`hour`/`minute`
entry that is `none` comes from numpy's unspecified NaN-to-int cast and is
modelled as invalid; a `hour`/`minute` list shorter than `day` is the
`IndexError` of `hour[k]`. -/
def mk_utc_times (year month : ℤ) :
    List (Option ℤ) → List (Option ℤ) → List (Option ℤ) →
    Except ParseErr (List (ℤ × ℤ × ℤ × ℤ × ℤ))
  | [], _, _ => .ok []
  | some d :: ds, some h :: hs, some mi :: ms =>
    if datetime_ok year month d h mi then
      match mk_utc_times year month ds hs ms with
      | .ok ts => .ok ((year, month, d, h, mi) :: ts)
      | .error e => .error e
    else .error .valueError
  | _ :: _, _ :: _, _ :: _ => .error .valueError
  | _ :: _, _, _ => .error .indexError

/-- The record-0100 data path of `core.load_data`, from the decode call to
the `values` table: decode (any exception in the 0100 decode or in the
timestamp construction is re-raised, per the `lrid in ('0100',)` handler),
filter all-NaN variables, build the UTC timestamps, and assemble the series
dictionary; an empty series dictionary makes `load_data` return `None`
("no data") instead of a table. -/
def load_record_0100 (year month : ℤ) (txt_data : List (List Char)) :
    Except ParseErr
      (Option (List (List Char × List (Option ℚ)) × List (ℤ × ℤ × ℤ × ℤ × ℤ))) :=
  match parse_logical_record_0100 txt_data with
  | .error e => .error e
  | .ok c =>
    let kept := drop_all_nan (channelPairs c)
    match mk_utc_times year month c.day c.hour c.minute with
    | .error e => .error e
    | .ok times =>
      let series := series_of kept
      if series.isEmpty then .ok none else .ok (some (series, times))

/-! ## Time centering and `util.time_interpolation` -/

/-- The centering transform of `core.load_data`
(`values.index = values.index + pd.Timedelta(30, 'seconds')`), on a series
represented as (time in seconds, value) pairs. -/
def center_timestamps (values : List (ℤ × Option ℚ)) : List (ℤ × Option ℚ) :=
  values.map (fun p => (p.1 + 30, p.2))

/-- `pandas.reindex` lookup by label: a label present in the source index
takes its value, an absent label becomes NaN (the source index of the raw
series is duplicate-free). -/
def lookupValue (data : List (ℤ × Option ℚ)) (t : ℤ) : Option ℚ :=
  match data.lookup t with
  | some v => v
  | none => none

/-- Stable insertion of a time into a sorted time list (ascending). -/
def insertTime (t : ℤ) : List ℤ → List ℤ
  | [] => [t]
  | u :: us => if t ≤ u then t :: u :: us else u :: insertTime t us

/-- `index.append(new_index).sort_values()`: all labels of both indices,
sorted ascending (duplicates kept). -/
def sortTimes : List ℤ → List ℤ
  | [] => []
  | t :: ts => insertTime t (sortTimes ts)

/-- `data.reindex(extended_index)` where
`extended_index = data.index.append(new_index).sort_values()`. -/
def extendedSeries (data : List (ℤ × Option ℚ)) (new_index : List ℤ) :
    List (ℤ × Option ℚ) :=
  (sortTimes (data.map Prod.fst ++ new_index)).map (fun t => (t, lookupValue data t))

/-- `interpolate(method='time', limit=1)` with the default forward limit
direction: walking the series in order, a NaN whose predecessor is a valid
observation (carried in `prev`) is filled — linearly in time against the
next valid observation when one exists, else with the last valid value —
and at most one consecutive NaN is filled, so after any NaN position `prev`
resets to `none`.  Leading NaNs are never filled. -/
def interpGo (prev : Option (ℤ × ℚ)) : List (ℤ × Option ℚ) → List (ℤ × Option ℚ)
  | [] => []
  | (t, some v) :: rest => (t, some v) :: interpGo (some (t, v)) rest
  | (t, none) :: rest =>
    match prev with
    | none => (t, none) :: interpGo none rest
    | some (t1, v1) =>
      let filled :=
        match rest.find? (fun p => p.2.isSome) with
        | some (t2, some v2) => some (v1 + (v2 - v1) * ((t - t1 : ℚ) / ((t2 : ℚ) - (t1 : ℚ))))
        | _ => some v1
      (t, filled) :: interpGo none rest

/-- `drop_duplicates(subset=index, keep='first')`: keep the first row of
every label. -/
def dropDupFirst : List (ℤ × Option ℚ) → List ℤ → List (ℤ × Option ℚ)
  | [], _ => []
  | (t, v) :: rest, seen =>
    if t ∈ seen then dropDupFirst rest seen
    else (t, v) :: dropDupFirst rest (t :: seen)

/-- The final `reindex(new_index)` on the deduplicated series: every label
of the regular grid is in the extended index, so each grid label takes its
(unique) value. -/
def reindexTo (s : List (ℤ × Option ℚ)) (new_index : List ℤ) :
    List (ℤ × Option ℚ) :=
  new_index.map (fun t => (t, lookupValue s t))

/-- `util.time_interpolation(data, new_index)`: extend the index with the
grid labels, time-interpolate with `limit=1`, drop duplicated labels
keeping the first, and reindex onto the grid. -/
def time_interpolation (data : List (ℤ × Option ℚ)) (new_index : List ℤ) :
    List (ℤ × Option ℚ) :=
  reindexTo (dropDupFirst (interpGo none (extendedSeries data new_index)) []) new_index

/-! ## Auxiliary definitions for the verification (witness inputs and
the scanner-output characterisation predicate) -/

/-- The characterisation of one scanner output entry: it is anchored at the
first marker occurrence of its id (index `k` in the full, pre-deduplication
marker list), and its `last_line` is the line before the next marker in that
full list, or the total number of input lines when that first occurrence is
the last marker. -/
def BoundSpecAt (txt : List (List Char)) (e : LRBound) : Prop :=
  ∃ (k : ℕ) (p : List Char × ℕ), (markerList txt)[k]? = some p ∧
    e.header = p.1 ∧ e.id = p.1.drop 2 ∧ e.first_line = p.2 ∧
    (∀ (j : ℕ) (q : List Char × ℕ), j < k → (markerList txt)[j]? = some q →
      q.1.drop 2 ≠ e.id) ∧
    ((∃ q, (markerList txt)[k + 1]? = some q ∧ e.last_line = q.2 - 1) ∨
     ((markerList txt)[k + 1]? = none ∧ e.last_line = txt.length))

/-- Concrete decoded contents used by the C1 witness. -/
def c1WitnessTxt : List (List Char) :=
  ["*C0100".toList,
   "  1    0   -999 -99.9 -999 -999    120 -99.9 -999 -999".toList,
   " 30 -99.9 -999 -999    346 -99.9 -999 -999   21.4   55.0   -999".toList]

/-- Concrete decoded contents used by the C1 witness. -/
def c1WitnessContents : Contents0100 :=
  match parse_logical_record_0100 c1WitnessTxt with
  | .ok c => c
  | .error _ => default

/-- The two physically-adjacent lines of each timestamp sample, flattened in
file order. -/
def pairLines (ps : List (List Char × List Char)) : List (List Char) :=
  ps.foldr (fun p acc => p.1 :: p.2 :: acc) []

/-- Input of the C4 witness: two good pairs around one corrupt pair whose
first line has 9 tokens. -/
def c4WitnessGood1 : List (List Char × List Char) :=
  [("  1    0      1 2 3 4 5 6 7 8".toList,
    "  1 2 3 4 5 6 7 8 9 10 11".toList)]

/-- Second good pair of the C4 witness. -/
def c4WitnessGood2 : List (List Char × List Char) :=
  [("  1    2      1 2 3 4 5 6 7 8".toList,
    "  1 2 3 4 5 6 7 8 9 10 11".toList)]

/-- Input of the C6 witness: a single sample stamped with minute-of-day
1440, the historical corruption pattern (hour decodes to 24). -/
def c6WitnessTxt : List (List Char) :=
  ["*C0100".toList,
   " 11 1440   -999 -99.9 -999 -999   -999 -99.9 -999 -999".toList,
   " -999 -99.9 -999 -999 -999 -99.9 -999 -999 -99.9 -99.9 -999".toList]

/-- Decoded contents of the C6 witness input. -/
def c6WitnessContents : Contents0100 :=
  match parse_logical_record_0100 c6WitnessTxt with
  | .ok c => c
  | .error _ => default

/-- First decoded instrument of the C8 witness. -/
def c8WitnessInstr1 : RadInstr :=
  match parseInstrBlock (exInstrBlock "1234".toList) with
  | .ok (e, _) => e
  | .error _ => default

/-- Second decoded instrument of the C8 witness. -/
def c8WitnessInstr2 : RadInstr :=
  match parseInstrBlock (exInstrBlock "5678".toList) with
  | .ok (e, _) => e
  | .error _ => default

/-- The fixed key list of the decoded record-0100 float channels. -/
def channelNames : List (List Char) :=
  ["global_horizontal".toList, "global_horizontal_std".toList,
   "global_horizontal_min".toList, "global_horizontal_max".toList,
   "direct_normal".toList, "direct_normal_std".toList,
   "direct_normal_min".toList, "direct_normal_max".toList,
   "diffuse_horizontal".toList, "diffuse_horizontal_std".toList,
   "diffuse_horizontal_min".toList, "diffuse_horizontal_max".toList,
   "downward_longwave".toList, "downward_longwave_std".toList,
   "downward_longwave_min".toList, "downward_longwave_max".toList,
   "air_temperature".toList, "relative_humidity".toList,
   "atmospheric_pressure".toList]

/-- Input of the C10 witness: one sample whose direct-normal value is the
sentinel `-999`, so after translation the `direct_normal` array is entirely
missing. -/
def c10WitnessTxt : List (List Char) :=
  ["*C0100".toList,
   "  1    0    100 -99.9 -999 -999   -999 -99.9 -999 -999".toList,
   " 30 -99.9 -999 -999    346 -99.9 -999 -999   21.4   55.0    950".toList]

/-- Decoded contents of the C10 witness input. -/
def c10WitnessContents : Contents0100 :=
  match parse_logical_record_0100 c10WitnessTxt with
  | .ok c => c
  | .error _ => default

/-! ## Lemmas about the Record-Bound Scanner -/

theorem scanMarkers_mem_bounds :
    ∀ (l : List (List Char)) (n : ℕ), ∀ p ∈ scanMarkers l n,
      n ≤ p.2 ∧ p.2 < n + l.length := by
  intro l
  induction l with
  | nil => intro n p hp; simp [scanMarkers] at hp
  | cons line rest ih =>
    intro n p hp
    simp only [scanMarkers] at hp
    split at hp
    · rcases List.mem_cons.mp hp with rfl | hp'
      · simp
      · have := ih (n + 1) p hp'
        simp only [List.length_cons]
        omega
    · have := ih (n + 1) p hp
      simp only [List.length_cons]
      omega

theorem scanMarkers_sorted :
    ∀ (l : List (List Char)) (n : ℕ),
      (scanMarkers l n).Pairwise (fun p q => p.2 < q.2) := by
  intro l
  induction l with
  | nil => intro n; simp [scanMarkers]
  | cons line rest ih =>
    intro n
    simp only [scanMarkers]
    split
    · refine List.Pairwise.cons ?_ (ih (n + 1))
      intro q hq
      have := scanMarkers_mem_bounds rest (n + 1) q hq
      simp only
      omega
    · exact ih (n + 1)

theorem markerList_pos_lt (txt : List (List Char)) {i j : ℕ}
    {a b : List Char × ℕ} (hij : i < j) (ha : (markerList txt)[i]? = some a)
    (hb : (markerList txt)[j]? = some b) : a.2 < b.2 := by
  have hs := scanMarkers_sorted txt 0
  rw [List.pairwise_iff_getElem] at hs
  rcases List.getElem?_eq_some.mp ha with ⟨hi, rfl⟩
  rcases List.getElem?_eq_some.mp hb with ⟨hj, rfl⟩
  exact hs i j hi hj hij

theorem firstOccurrences_mem_spec :
    ∀ (ms : List (List Char × ℕ)) (seen : List (List Char))
      (occ : List Char × List Char × ℕ), occ ∈ firstOccurrences ms seen →
      occ.1 ∉ seen ∧
      ∃ (k : ℕ) (p : List Char × ℕ), ms[k]? = some p ∧ p.1.drop 2 = occ.1 ∧
        p.1 = occ.2.1 ∧ p.2 = occ.2.2 ∧
        ∀ (j : ℕ) (q : List Char × ℕ), j < k → ms[j]? = some q →
          q.1.drop 2 ≠ occ.1 := by
  intro ms
  induction ms with
  | nil => simp [firstOccurrences]
  | cons hd rest ih =>
    rcases hd with ⟨stamp, n⟩
    intro seen occ hocc
    simp only [firstOccurrences] at hocc
    split at hocc
    case isTrue hseen =>
      obtain ⟨hnot, k, pp, hget, hid, hh, hn, hfirst⟩ := ih seen occ hocc
      refine ⟨hnot, k + 1, pp, by simpa [List.getElem?_cons_succ] using hget,
        hid, hh, hn, ?_⟩
      intro j q hj hq
      match j with
      | 0 =>
        simp only [List.getElem?_cons_zero, Option.some.injEq] at hq
        subst hq
        intro hcontra
        exact hnot (hcontra ▸ hseen)
      | j' + 1 =>
        exact hfirst j' q (by omega)
          (by simpa [List.getElem?_cons_succ] using hq)
    case isFalse hseen =>
      rcases List.mem_cons.mp hocc with rfl | hocc'
      · refine ⟨hseen, 0, (stamp, n), List.getElem?_cons_zero, rfl, rfl, rfl, ?_⟩
        intro j q hj
        omega
      · obtain ⟨hnot, k, pp, hget, hid, hh, hn, hfirst⟩ :=
          ih (stamp.drop 2 :: seen) occ hocc'
        have hne : occ.1 ≠ stamp.drop 2 := fun hcontra => hnot (by simp [hcontra])
        refine ⟨fun hmem => hnot (by simp [hmem]), k + 1, pp,
          by simpa [List.getElem?_cons_succ] using hget, hid, hh, hn, ?_⟩
        intro j q hj hq
        match j with
        | 0 =>
          simp only [List.getElem?_cons_zero, Option.some.injEq] at hq
          subst hq
          exact fun hcontra => hne (hcontra ▸ rfl)
        | j' + 1 =>
          exact hfirst j' q (by omega)
            (by simpa [List.getElem?_cons_succ] using hq)

theorem firstOccurrences_complete :
    ∀ (ms : List (List Char × ℕ)) (seen : List (List Char)) (k : ℕ)
      (p : List Char × ℕ), ms[k]? = some p → p.1.drop 2 ∉ seen →
      (∀ (j : ℕ) (q : List Char × ℕ), j < k → ms[j]? = some q →
        q.1.drop 2 ≠ p.1.drop 2) →
      (p.1.drop 2, p.1, p.2) ∈ firstOccurrences ms seen := by
  intro ms
  induction ms with
  | nil => simp
  | cons hd rest ih =>
    rcases hd with ⟨stamp, n⟩
    intro seen k p hget hseen hfirst
    match k with
    | 0 =>
      simp only [List.getElem?_cons_zero, Option.some.injEq] at hget
      subst hget
      simp only [firstOccurrences, if_neg hseen]
      exact List.mem_cons_self _ _
    | k' + 1 =>
      have hne : stamp.drop 2 ≠ p.1.drop 2 :=
        hfirst 0 (stamp, n) (by omega) List.getElem?_cons_zero
      simp only [firstOccurrences]
      by_cases hsm : stamp.drop 2 ∈ seen
      · simp only [if_pos hsm]
        exact ih seen k' p (by simpa [List.getElem?_cons_succ] using hget) hseen
          (fun j q hj hq => hfirst (j + 1) q (by omega)
            (by simpa [List.getElem?_cons_succ] using hq))
      · simp only [if_neg hsm]
        refine List.mem_cons_of_mem _ ?_
        refine ih (stamp.drop 2 :: seen) k' p
          (by simpa [List.getElem?_cons_succ] using hget) ?_
          (fun j q hj hq => hfirst (j + 1) q (by omega)
            (by simpa [List.getElem?_cons_succ] using hq))
        simp only [List.mem_cons, not_or]
        exact ⟨fun hcontra => hne hcontra.symm, hseen⟩

theorem findIdx_eq_of_first {α : Type} (pred : α → Bool) :
    ∀ (l : List α) (k : ℕ) (p : α), l[k]? = some p → pred p = true →
      (∀ (j : ℕ) (q : α), j < k → l[j]? = some q → pred q = false) →
      l.findIdx pred = k := by
  intro l
  induction l with
  | nil => simp
  | cons hd rest ih =>
    intro k p hget hp hfirst
    match k with
    | 0 =>
      simp only [List.getElem?_cons_zero, Option.some.injEq] at hget
      subst hget
      simp [List.findIdx_cons, hp]
    | k' + 1 =>
      have h0 : pred hd = false := hfirst 0 hd (by omega) List.getElem?_cons_zero
      simp only [List.findIdx_cons, h0, cond_false]
      have := ih k' p (by simpa [List.getElem?_cons_succ] using hget) hp
        (fun j q hj hq => hfirst (j + 1) q (by omega)
          (by simpa [List.getElem?_cons_succ] using hq))
      omega

theorem bounds_mem_spec (txt : List (List Char)) (e : LRBound)
    (he : e ∈ find_logical_record_bounds txt) : BoundSpecAt txt e := by
  simp only [find_logical_record_bounds, List.mem_map] at he
  obtain ⟨occ, hocc, rfl⟩ := he
  obtain ⟨-, k, p, hget, hid, hh, hn, hfirst⟩ :=
    firstOccurrences_mem_spec (markerList txt) [] occ hocc
  have hk : (markerList txt).findIdx (fun q => q.1.drop 2 = occ.1) = k := by
    refine findIdx_eq_of_first _ _ k p hget (by simp [hid]) ?_
    intro j q hj hq
    simpa using hfirst j q hj hq
  have hklen : k < (markerList txt).length := (List.getElem?_eq_some.mp hget).1
  refine ⟨k, p, hget, hh.symm, hid.symm, hn.symm, ?_, ?_⟩
  · intro j q hj hq
    exact hid ▸ hfirst j q hj hq
  · simp only [hk]
    by_cases hlast : k < (markerList txt).length - 1
    · left
      have hk1 : k + 1 < (markerList txt).length := by omega
      have hq := List.getElem?_eq_getElem hk1
      exact ⟨(markerList txt)[k + 1], hq, by simp [hlast, hq]⟩
    · right
      have hle : (markerList txt).length ≤ k + 1 := by omega
      exact ⟨List.getElem?_eq_none hle, by simp [hlast]⟩

theorem bounds_complete (txt : List (List Char)) (k : ℕ) (p : List Char × ℕ)
    (hget : (markerList txt)[k]? = some p)
    (hfirst : ∀ (j : ℕ) (q : List Char × ℕ), j < k →
      (markerList txt)[j]? = some q → q.1.drop 2 ≠ p.1.drop 2) :
    ∃ e ∈ find_logical_record_bounds txt,
      e.id = p.1.drop 2 ∧ e.header = p.1 ∧ e.first_line = p.2 := by
  have hmem := firstOccurrences_complete (markerList txt) [] k p hget
    (by simp) hfirst
  exact ⟨_, List.mem_map_of_mem _ hmem, rfl, rfl, rfl⟩

theorem first_occurrence_unique (txt : List (List Char)) (k k' : ℕ)
    (p p' : List Char × ℕ) (hget : (markerList txt)[k]? = some p)
    (hget' : (markerList txt)[k']? = some p')
    (hid : p.1.drop 2 = p'.1.drop 2)
    (hfirst : ∀ (j : ℕ) (q : List Char × ℕ), j < k →
      (markerList txt)[j]? = some q → q.1.drop 2 ≠ p.1.drop 2)
    (hfirst' : ∀ (j : ℕ) (q : List Char × ℕ), j < k' →
      (markerList txt)[j]? = some q → q.1.drop 2 ≠ p'.1.drop 2) : k = k' := by
  rcases lt_trichotomy k k' with h | h | h
  · exact absurd hid (hfirst' k p h hget)
  · exact h
  · exact absurd hid.symm (hfirst k' p' h hget')

theorem bound_spec_disjoint (txt : List (List Char)) {e1 e2 : LRBound}
    {k1 k2 : ℕ} {p1 p2 : List Char × ℕ}
    (hg1 : (markerList txt)[k1]? = some p1)
    (hg2 : (markerList txt)[k2]? = some p2)
    (hfl2 : e2.first_line = p2.2)
    (hlast1 : (∃ q, (markerList txt)[k1 + 1]? = some q ∧ e1.last_line = q.2 - 1) ∨
      ((markerList txt)[k1 + 1]? = none ∧ e1.last_line = txt.length))
    (hk : k1 < k2) : e1.last_line < e2.first_line := by
  have hk2len : k2 < (markerList txt).length := (List.getElem?_eq_some.mp hg2).1
  have hk1len : k1 + 1 < (markerList txt).length := by omega
  rcases hlast1 with ⟨q, hq, hlast⟩ | ⟨hnone, -⟩
  · have hlt1 : p1.2 < q.2 := markerList_pos_lt txt (by omega) hg1 hq
    have hle2 : q.2 ≤ p2.2 := by
      rcases Nat.lt_or_ge (k1 + 1) k2 with h | h
      · exact le_of_lt (markerList_pos_lt txt h hq hg2)
      · have : k1 + 1 = k2 := by omega
        subst this
        rw [hq] at hg2
        injection hg2 with h'
        rw [h']
    omega
  · rw [List.getElem?_eq_getElem hk1len] at hnone
    simp at hnone

theorem exists_largest_le :
    ∀ (ms : List (List Char × ℕ)) (j : ℕ) (p0 : List Char × ℕ),
      p0 ∈ ms → p0.2 ≤ j →
      ∃ (k : ℕ) (p : List Char × ℕ), ms[k]? = some p ∧ p.2 ≤ j ∧
        (ms[k + 1]? = none ∨ ∃ q, ms[k + 1]? = some q ∧ j < q.2) := by
  intro ms
  induction ms with
  | nil => simp
  | cons a rest ih =>
    intro j p0 hp0 hle
    by_cases hex : ∃ p ∈ rest, p.2 ≤ j
    · obtain ⟨p1, hp1, hle1⟩ := hex
      obtain ⟨k, p, hget, hple, hnext⟩ := ih j p1 hp1 hle1
      refine ⟨k + 1, p, by simpa [List.getElem?_cons_succ] using hget, hple, ?_⟩
      rcases hnext with hnone | ⟨q, hq, hlt⟩
      · exact Or.inl (by simpa [List.getElem?_cons_succ] using hnone)
      · exact Or.inr ⟨q, by simpa [List.getElem?_cons_succ] using hq, hlt⟩
    · have ha : a.2 ≤ j := by
        rcases List.mem_cons.mp hp0 with rfl | hp0'
        · exact hle
        · exact absurd ⟨p0, hp0', hle⟩ hex
      refine ⟨0, a, List.getElem?_cons_zero, ha, ?_⟩
      match rest with
      | [] => exact Or.inl rfl
      | b :: rest' =>
        refine Or.inr ⟨b, by simp, ?_⟩
        by_contra hcontra
        exact hex ⟨b, List.mem_cons_self _ _, by omega⟩

theorem nodup_ids_first (txt : List (List Char))
    (hnd : ((markerList txt).map (fun p => p.1.drop 2)).Nodup) :
    ∀ (k : ℕ) (p : List Char × ℕ), (markerList txt)[k]? = some p →
      ∀ (j : ℕ) (q : List Char × ℕ), j < k → (markerList txt)[j]? = some q →
        q.1.drop 2 ≠ p.1.drop 2 := by
  rw [List.nodup_iff_injective_get] at hnd
  intro k p hget j q hj hq
  rcases List.getElem?_eq_some.mp hget with ⟨hk, rfl⟩
  rcases List.getElem?_eq_some.mp hq with ⟨hjlen, rfl⟩
  intro hcontra
  have hmaplen : j < ((markerList txt).map (fun p => p.1.drop 2)).length := by
    simpa using hjlen
  have hmapk : k < ((markerList txt).map (fun p => p.1.drop 2)).length := by
    simpa using hk
  have := @hnd ⟨j, hmaplen⟩ ⟨k, hmapk⟩ (by simpa using hcontra)
  simp only [Fin.mk.injEq] at this
  omega

/-- Claim C2:  Characterisation of the Record-Bound Scanner output, as the
code computes it: one entry per distinct 4-digit id, anchored at that id's
first marker occurrence (later duplicates ignored); the entry's `last_line`
is the line index immediately preceding the next marker in the original
(pre-deduplication) occurrence order; and for the id whose first occurrence
is the last marker overall, `last_line` equals the total number of input
lines — one *past* the final line index (the value the claim asserts). -/
theorem c2_record_bound_scanner (txt : List (List Char)) :
    (∀ e ∈ find_logical_record_bounds txt, BoundSpecAt txt e) ∧
    (∀ (k : ℕ) (p : List Char × ℕ), (markerList txt)[k]? = some p →
      (∀ (j : ℕ) (q : List Char × ℕ), j < k → (markerList txt)[j]? = some q →
        q.1.drop 2 ≠ p.1.drop 2) →
      ∃ e ∈ find_logical_record_bounds txt,
        e.id = p.1.drop 2 ∧ e.first_line = p.2) :=
  ⟨bounds_mem_spec txt,
   fun k p hget hfirst =>
     (bounds_complete txt k p hget hfirst).imp
       (fun _ h => ⟨h.1, h.2.1, h.2.2.2⟩)⟩

/-- Claim C2, counterexample:  On the one-line input `["*C0100"]` the scanner
returns `last_line = 1 = len(txt_data)`, while the final line index of the
input is `0`: the claim "the last line equals the final line index of the
input" fails. -/
theorem c2_counterexample :
    (find_logical_record_bounds ["*C0100".toList]).map LRBound.last_line = [1] ∧
    (["*C0100".toList] : List (List Char)).length - 1 = 0 ∧ (1 : ℕ) ≠ 0 := by
  decide

/-- Claim C2, witness:  The characterisation instantiated on a concrete
two-record input. -/
theorem c2_witness :
    BoundSpecAt ["*C0100".toList, "x".toList, "*C0200".toList, "y".toList]
      ⟨"0100".toList, "*C0100".toList, true, 0, 1⟩ :=
  (c2_record_bound_scanner _).1 _ (by decide)

/-- Claim C7:  Spans of distinct entries are always pairwise disjoint; and
when no 4-digit id occurs on more than one marker line, the spans cover
every line from the first marker to the end of the file.  (With duplicate
ids the coverage half fails, see the counterexample.) -/
theorem c7_span_disjoint_cover (txt : List (List Char)) :
    (∀ e1 ∈ find_logical_record_bounds txt,
      ∀ e2 ∈ find_logical_record_bounds txt, e1.id ≠ e2.id →
        e1.last_line < e2.first_line ∨ e2.last_line < e1.first_line) ∧
    (((markerList txt).map (fun p => p.1.drop 2)).Nodup →
      ∀ (j : ℕ) (p0 : List Char × ℕ), p0 ∈ markerList txt → p0.2 ≤ j →
        j < txt.length →
        ∃ e ∈ find_logical_record_bounds txt,
          e.first_line ≤ j ∧ j ≤ e.last_line) := by
  constructor
  · intro e1 he1 e2 he2 hne
    obtain ⟨k1, p1, hg1, hh1, hid1, hfl1, hfirst1, hlast1⟩ := bounds_mem_spec txt e1 he1
    obtain ⟨k2, p2, hg2, hh2, hid2, hfl2, hfirst2, hlast2⟩ := bounds_mem_spec txt e2 he2
    have hkne : k1 ≠ k2 := by
      intro hcontra
      subst hcontra
      rw [hg1] at hg2
      injection hg2 with h'
      exact hne (by rw [hid1, hid2, h'])
    rcases Nat.lt_or_ge k1 k2 with h | h
    · exact Or.inl (bound_spec_disjoint txt hg1 hg2 hfl2 hlast1 h)
    · have h' : k2 < k1 := by omega
      exact Or.inr (bound_spec_disjoint txt hg2 hg1 hfl1 hlast2 h')
  · intro hnd j p0 hp0 hple hjlen
    obtain ⟨k, p, hget, hple', hnext⟩ := exists_largest_le (markerList txt) j p0 hp0 hple
    have hfirst := nodup_ids_first txt hnd k p hget
    obtain ⟨e, he, hid, hh, hfl⟩ := bounds_complete txt k p hget hfirst
    obtain ⟨k', p', hg', hh', hid', hfl', hfirst', hlast'⟩ := bounds_mem_spec txt e he
    have hideq : p.1.drop 2 = p'.1.drop 2 := by rw [← hid', hid]
    have hfirstk' : ∀ (j' : ℕ) (q : List Char × ℕ), j' < k' →
        (markerList txt)[j']? = some q → q.1.drop 2 ≠ p'.1.drop 2 := by
      intro j' q hj' hq' hcontra
      exact hfirst' j' q hj' hq' (by rw [hcontra, ← hid'])
    have hkk : k = k' := first_occurrence_unique txt k k' p p' hget hg' hideq
      hfirst hfirstk'
    subst hkk
    rw [hget] at hg'
    injection hg' with hpp
    subst hpp
    refine ⟨e, he, by omega, ?_⟩
    rcases hlast' with ⟨q, hq, hlast⟩ | ⟨hnone, hlast⟩
    · rcases hnext with hnone' | ⟨q', hq', hlt⟩
      · rw [hq] at hnone'
        simp at hnone'
      · rw [hq] at hq'
        injection hq' with hqq
        subst hqq
        omega
    · omega

/-- Claim C7, counterexample:  With a duplicated id
(`*C0100 / "a" / *U0100 / "b"`), line 2 lies between the first marker and the
end of the file, yet no span covers it: coverage fails on inputs where a
record id's marker occurs more than once. -/
theorem c7_counterexample :
    (∃ p ∈ markerList ["*C0100".toList, "a".toList, "*U0100".toList, "b".toList],
      p.2 ≤ 2) ∧
    2 < (["*C0100".toList, "a".toList, "*U0100".toList, "b".toList] :
      List (List Char)).length ∧
    ¬ ∃ e ∈ find_logical_record_bounds
        ["*C0100".toList, "a".toList, "*U0100".toList, "b".toList],
      e.first_line ≤ 2 ∧ 2 ≤ e.last_line := by
  decide

/-- Claim C7, witness:  Both halves instantiated on a concrete duplicate-free
two-record input: the two spans are disjoint, and line 1 (between the
markers) is covered. -/
theorem c7_witness :
    ((⟨"0100".toList, "*C0100".toList, true, 0, 1⟩ : LRBound).last_line <
        (⟨"0200".toList, "*C0200".toList, true, 2, 4⟩ : LRBound).first_line ∨
      (⟨"0200".toList, "*C0200".toList, true, 2, 4⟩ : LRBound).last_line <
        (⟨"0100".toList, "*C0100".toList, true, 0, 1⟩ : LRBound).first_line) ∧
    (∃ e ∈ find_logical_record_bounds
        ["*C0100".toList, "x".toList, "*C0200".toList, "y".toList],
      e.first_line ≤ 1 ∧ 1 ≤ e.last_line) :=
  ⟨(c7_span_disjoint_cover
      ["*C0100".toList, "x".toList, "*C0200".toList, "y".toList]).1
      _ (by decide) _ (by decide) (by decide),
   (c7_span_disjoint_cover
      ["*C0100".toList, "x".toList, "*C0200".toList, "y".toList]).2
      (by decide) 1 ("*C0100".toList, 0) (by decide) (by decide) (by decide)⟩

/-! ## Sentinel translation (record 0100) -/

theorem sentinelToNan_ne (s : ℚ) (l : List (Option ℚ)) :
    ∀ v ∈ sentinelToNan s l, v ≠ some s := by
  intro v hv
  simp only [sentinelToNan, List.mem_map] at hv
  obtain ⟨w, -, rfl⟩ := hv
  by_cases h : w = some s
  · simp [h]
  · simp only [if_neg h]
    exact h

theorem sentinelToNan_replaces (s : ℚ) (l : List (Option ℚ)) (i : ℕ)
    (h : l[i]? = some (some s)) : (sentinelToNan s l)[i]? = some none := by
  simp only [sentinelToNan, List.getElem?_map, h, Option.map_some]
  simp

/-- Claim C1:  Sentinel translation in the record-0100 decoder, per field
group as the code implements it: the thirteen absolute-value channels
(global/direct/diffuse/longwave with their min/max, *and atmospheric
pressure*) never contain their sentinel `-999` in the output, and the six
`-99.9`-group channels (the four standard deviations, air temperature and
relative humidity) never contain `-99.9`; each channel is the sentinel-to-NaN
image of its raw column, so a sentinel value is replaced by the missing
marker, never kept. -/
theorem c1_sentinel_translation (txt : List (List Char)) (c : Contents0100)
    (h : parse_logical_record_0100 txt = .ok c) :
    (∀ arr ∈ [c.global_horizontal, c.global_horizontal_min,
        c.global_horizontal_max, c.direct_normal, c.direct_normal_min,
        c.direct_normal_max, c.diffuse_horizontal, c.diffuse_horizontal_min,
        c.diffuse_horizontal_max, c.downward_longwave,
        c.downward_longwave_min, c.downward_longwave_max,
        c.atmospheric_pressure],
      ∀ v ∈ arr, v ≠ some (-999 : ℚ)) ∧
    (∀ arr ∈ [c.global_horizontal_std, c.direct_normal_std,
        c.diffuse_horizontal_std, c.downward_longwave_std,
        c.air_temperature, c.relative_humidity],
      ∀ v ∈ arr, v ≠ some ((-999 : ℚ) / 10)) ∧
    (∃ d1 d2, loop0100 (txt.drop 1) = .ok (d1, d2) ∧
      c.atmospheric_pressure = sentinelToNan (-999) (column d2 10) ∧
      c.air_temperature = sentinelToNan (-999 / 10) (column d2 8) ∧
      c.relative_humidity = sentinelToNan (-999 / 10) (column d2 9)) := by
  rcases hl : loop0100 txt.tail with e | ⟨d1, d2⟩
  · simp [parse_logical_record_0100, List.drop_one, hl] at h
  · simp only [parse_logical_record_0100, List.drop_one, hl] at h
    split at h
    · exact absurd h (by simp)
    · injection h with h'
      subst h'
      refine ⟨?_, ?_, d1, d2, by rw [List.drop_one]; exact hl, rfl, rfl, rfl⟩
      · intro arr harr
        simp only [List.mem_cons, List.not_mem_nil, or_false] at harr
        rcases harr with rfl | rfl | rfl | rfl | rfl | rfl | rfl | rfl | rfl |
          rfl | rfl | rfl | rfl <;>
          exact sentinelToNan_ne _ _
      · intro arr harr
        simp only [List.mem_cons, List.not_mem_nil, or_false] at harr
        rcases harr with rfl | rfl | rfl | rfl | rfl | rfl <;>
          exact sentinelToNan_ne _ _

/-- Claim C1, counterexample:  A record-0100 span whose pressure field holds
the token `-99.9`: the claim places atmospheric pressure in the `-99.9`
sentinel group, but the decoder translates only `-999` in that channel, so
the literal `-99.9` survives into the output array instead of becoming
missing. -/
theorem c1_counterexample :
    (parse_logical_record_0100
      ["*C0100".toList,
       "  1    0      0 -99.9 -999 -999      0 -99.9 -999 -999".toList,
       "  0 -99.9 -999 -999    346 -99.9 -999 -999  -99.9  -99.9  -99.9".toList]).map
      (fun c => c.atmospheric_pressure) = .ok [some ((-999 : ℚ) / 10)] ∧
    some ((-999 : ℚ) / 10) ≠ (none : Option ℚ) := by
  constructor
  · decide
  · simp

/-- Claim C1, witness: -/
theorem c1_witness :
    some (-999 : ℚ) ∉ c1WitnessContents.atmospheric_pressure ∧
    some ((-999 : ℚ) / 10) ∉ c1WitnessContents.air_temperature := by
  have h := c1_sentinel_translation c1WitnessTxt c1WitnessContents (by decide)
  constructor
  · intro hmem
    exact h.1 c1WitnessContents.atmospheric_pressure (by simp) _ hmem rfl
  · intro hmem
    exact h.2.1 c1WitnessContents.air_temperature (by simp) _ hmem rfl

/-! ## Sample-pair dropping (record 0100) -/

theorem loop0100_skip (l1 : List Char) (rest : List (List Char))
    (h : ¬ (lineValues l1).length = 10) :
    loop0100 (l1 :: rest) = loop0100 rest := by
  cases rest with
  | nil => simp [loop0100, h]
  | cons l2 rest2 => simp [loop0100, h]

theorem loop0100_all_good :
    ∀ ps : List (List Char × List Char),
      (∀ p ∈ ps, (lineValues p.1).length = 10 ∧ (lineValues p.2).length = 11) →
      loop0100 (pairLines ps) =
        .ok (ps.map (fun p => lineValues p.1), ps.map (fun p => lineValues p.2)) := by
  intro ps
  induction ps with
  | nil => intro _; simp [pairLines, loop0100]
  | cons a rest ih =>
    intro h
    have ha := h a (List.mem_cons_self _ _)
    have hrest := fun p hp => h p (List.mem_cons_of_mem _ hp)
    simp only [pairLines, List.foldr_cons] at *
    simp [loop0100, ha.1, ha.2, ih hrest]

/-- Claim C4:  A record-0100 span of well-formed two-line sample pairs in
which exactly one pair's first line has 9 whitespace tokens instead of 10
(its second line still has 11): the collection loop drops exactly that one
timestamp sample — both of its lines — and retains every other sample's
values unchanged and in order; consequently the decoder succeeds (when at
least one good pair remains) with one decoded row per remaining sample, e.g.
1439 rows out of 1440 pairs. -/
theorem c4_corrupt_pair_dropped (hdr bad1 bad2 : List Char)
    (good1 good2 : List (List Char × List Char))
    (hg1 : ∀ p ∈ good1, (lineValues p.1).length = 10 ∧ (lineValues p.2).length = 11)
    (hg2 : ∀ p ∈ good2, (lineValues p.1).length = 10 ∧ (lineValues p.2).length = 11)
    (hb1 : (lineValues bad1).length = 9)
    (hb2 : (lineValues bad2).length = 11) :
    loop0100 (pairLines good1 ++ bad1 :: bad2 :: pairLines good2) =
      .ok ((good1 ++ good2).map (fun p => lineValues p.1),
           (good1 ++ good2).map (fun p => lineValues p.2)) ∧
    (good1 ++ good2 ≠ [] →
      (parse_logical_record_0100
          (hdr :: (pairLines good1 ++ bad1 :: bad2 :: pairLines good2))).map
        (fun c => (c.day.length, c.global_horizontal.length)) =
        .ok (good1.length + good2.length, good1.length + good2.length)) := by
  have hloop : loop0100 (pairLines good1 ++ bad1 :: bad2 :: pairLines good2) =
      .ok ((good1 ++ good2).map (fun p => lineValues p.1),
           (good1 ++ good2).map (fun p => lineValues p.2)) := by
    induction good1 with
    | nil =>
      have h9 : ¬ (lineValues bad1).length = 10 := by omega
      have h11 : ¬ (lineValues bad2).length = 10 := by omega
      have hrest := loop0100_all_good good2 hg2
      simp only [pairLines, List.foldr_nil, List.nil_append] at hrest ⊢
      rw [loop0100_skip _ _ h9, loop0100_skip _ _ h11, hrest]
    | cons a rest ih =>
      have ha := hg1 a (List.mem_cons_self _ _)
      have hrest := fun p hp => hg1 p (List.mem_cons_of_mem _ hp)
      simp only [pairLines, List.foldr_cons, List.cons_append] at *
      simp [loop0100, ha.1, ha.2, ih hrest]
  refine ⟨hloop, fun hne => ?_⟩
  have hmapne : (good1 ++ good2).map (fun p => lineValues p.1) ≠ [] := by
    simpa using hne
  simp only [parse_logical_record_0100, List.drop_one, List.tail_cons, hloop]
  rw [if_neg hmapne]
  simp [Except.map, column, List.length_append, sentinelToNan]

/-- Claim C4, witness:  One corrupt pair among three: exactly 2 rows decoded. -/
theorem c4_witness :
    (parse_logical_record_0100
        ("*C0100".toList ::
          (pairLines c4WitnessGood1 ++ "  1    1      1 2 3 4 5 6 7".toList ::
            "  1 2 3 4 5 6 7 8 9 10 11".toList :: pairLines c4WitnessGood2))).map
      (fun c => (c.day.length, c.global_horizontal.length)) = .ok (2, 2) := by
  have h :=
    (c4_corrupt_pair_dropped "*C0100".toList
      "  1    1      1 2 3 4 5 6 7".toList "  1 2 3 4 5 6 7 8 9 10 11".toList
      c4WitnessGood1 c4WitnessGood2 (by decide) (by decide) (by decide)
      (by decide)).2 (by decide)
  exact h

/-! ## Empty primary span (C3) and hour overflow (C6) -/

/-- Claim C3:  A record-0100 span with zero valid sample pairs makes the
decode *raise* (`np.stack` of an empty list is a `ValueError`), and because
record-0100 decode errors are re-raised by `load_data`, the whole call
errors out instead of returning a metadata-only result. -/
theorem c3_empty_span_raises (year month : ℤ) (txt_data : List (List Char))
    (h : loop0100 (txt_data.drop 1) = .ok ([], [])) :
    load_record_0100 year month txt_data = .error .valueError := by
  rw [List.drop_one] at h
  have hp : parse_logical_record_0100 txt_data = .error .valueError := by
    simp [parse_logical_record_0100, List.drop_one, h]
  simp [load_record_0100, hp]

/-- Claim C3, counterexample:  The minimal record-0100 span (just the marker
line, zero sample pairs): the call errors, where the claim asserts a
metadata-populated, exception-free result. -/
theorem c3_counterexample :
    load_record_0100 2008 5 ["*C0100".toList] = .error .valueError := by
  rfl

/-- Claim C3, witness:  A span whose only line fails tokenisation also has
zero valid pairs and errors. -/
theorem c3_witness :
    load_record_0100 2008 5 ["*C0100".toList, "junk line".toList] =
      .error .valueError :=
  c3_empty_span_raises 2008 5 _ (by decide)

theorem parse0100_day_hour_len (txt_data : List (List Char)) (c : Contents0100)
    (h : parse_logical_record_0100 txt_data = .ok c) :
    c.day.length = c.hour.length := by
  rcases hl : loop0100 txt_data.tail with e | ⟨d1, d2⟩
  · simp [parse_logical_record_0100, List.drop_one, hl] at h
  · simp only [parse_logical_record_0100, List.drop_one, hl] at h
    split at h
    · exact absurd h (by simp)
    · injection h with h'
      subst h'
      simp [column]

theorem mk_utc_times_error (year month : ℤ) :
    ∀ (ds hs ms : List (Option ℤ)) (k : ℕ) (h : ℤ),
      hs[k]? = some (some h) → 23 < h → k < ds.length →
      ∃ e, mk_utc_times year month ds hs ms = .error e := by
  intro ds
  induction ds with
  | nil => intro hs ms k h _ _ hk; simp at hk
  | cons d ds' ih =>
    intro hs ms k h hget hgt hk
    match hs with
    | [] => simp at hget
    | h0 :: hs' =>
      match ms with
      | [] =>
        rcases d with - | dv <;> rcases h0 with - | hv <;>
          exact ⟨_, rfl⟩
      | m0 :: ms' =>
        rcases d with - | dv
        · rcases h0 with - | hv <;> exact ⟨_, rfl⟩
        · rcases h0 with - | hv
          · exact ⟨_, rfl⟩
          · rcases m0 with - | mv
            · exact ⟨_, rfl⟩
            · by_cases hok : datetime_ok year month dv hv mv
              · match k with
                | 0 =>
                  simp only [List.getElem?_cons_zero, Option.some.injEq] at hget
                  have hbad : ¬ datetime_ok year month dv hv mv = true := by
                    simp only [datetime_ok, Bool.and_eq_true, decide_eq_true_eq,
                      not_and]
                    omega
                  exact absurd hok hbad
                | k' + 1 =>
                  obtain ⟨e, he⟩ := ih hs' ms' k' h
                    (by simpa [List.getElem?_cons_succ] using hget) hgt
                    (by simpa using hk)
                  exact ⟨e, by simp [mk_utc_times, hok, he]⟩
              · exact ⟨.valueError, by simp [mk_utc_times, hok]⟩

/-- Claim C6:  If the decoded record 0100 contains a sample whose derived
hour value exceeds 23 (i.e. minute-of-day at least 1440), the timestamp
construction raises and — record-0100 errors being re-raised — the whole
period's load fails with an error; no repaired success value is ever
produced. -/
theorem c6_hour_overflow_fatal (year month : ℤ) (txt_data : List (List Char))
    (c : Contents0100) (k : ℕ) (h : ℤ)
    (hp : parse_logical_record_0100 txt_data = .ok c)
    (hk : c.hour[k]? = some (some h)) (hgt : 23 < h) :
    ∃ e, load_record_0100 year month txt_data = .error e := by
  have hklen : k < c.hour.length := (List.getElem?_eq_some.mp hk).1
  have hlen := parse0100_day_hour_len txt_data c hp
  obtain ⟨e, he⟩ := mk_utc_times_error year month c.day c.hour c.minute k h hk
    hgt (by omega)
  exact ⟨e, by simp [load_record_0100, hp, he]⟩

/-- Claim C6, witness: -/
theorem c6_witness : ∃ e, load_record_0100 2013 9 c6WitnessTxt = .error e :=
  c6_hour_overflow_fatal 2013 9 c6WitnessTxt c6WitnessContents 0 24
    (by decide) (by decide) (by decide)

/-! ## The ozone-equipment decoder can never succeed (C9) -/

/-- Claim C9:  `parse_logical_record_0006` raises on *every* input: a span
whose length is not exactly 3 lines fails the length contract
(`BSRNParsingError`), exactly as claimed; but a span of exactly 3 lines
always ends in the `IndexError` of `txt_data[3]` (the remarks line the
3-line contract just excluded), so the decoder never returns the decoded
attributes the claim promises. -/
theorem c9_0006_always_raises (txt_data : List (List Char)) :
    ∃ e, parse_logical_record_0006 txt_data = .error e := by
  by_cases hlen : txt_data.length = 3
  · obtain ⟨a, b, c, rfl⟩ := List.length_eq_three.mp hlen
    rcases hm1 : parseFields patDayHourMinuteFlag b with e | m1
    · exact ⟨e, by simp [parse_logical_record_0006, hm1]⟩
    · rcases hd : parseIntStrict ((m1[0]?).getD []) with e | dday
      · exact ⟨e, by simp [parse_logical_record_0006, hm1, hd]⟩
      · rcases hh : parseIntStrict ((m1[1]?).getD []) with e | dhour
        · exact ⟨e, by simp [parse_logical_record_0006, hm1, hd, hh]⟩
        · rcases hmi : parseIntStrict ((m1[2]?).getD []) with e | dminute
          · exact ⟨e, by simp [parse_logical_record_0006, hm1, hd, hh, hmi]⟩
          · rcases hm2 : parseFields pat0006Line2 c with e | m2
            · exact ⟨e, by simp [parse_logical_record_0006, hm1, hd, hh, hmi, hm2]⟩
            · rcases hdi : parseIntStrict ((m2[2]?).getD []) with e | dist
              · exact ⟨e, by
                  simp [parse_logical_record_0006, hm1, hd, hh, hmi, hm2, hdi]⟩
              · exact ⟨.indexError, by
                  simp [parse_logical_record_0006, hm1, hd, hh, hmi, hm2, hdi]⟩
  · exact ⟨.parsingError, by simp [parse_logical_record_0006, hlen]⟩

/-- Claim C9, evaluation at the failing input:  A fully well-formed 3-line
0006 span (valid change date, operating flag, manufacturer, location,
distance and id fields): the decoder still raises (`txt_data[3]`). -/
theorem c9_failing_input_eval :
    parse_logical_record_0006
      ["*C0006".toList,
       " -1 -1 -1 Y".toList,
       padR "Brewer".toList 30 ++ [' '] ++ padR "on site".toList 25 ++ [' ']
         ++ "  5".toList ++ [' '] ++ "OZ-1".toList] = .error .indexError := by
  decide

/-! ## Two-instrument record 0008 (C8) -/

theorem length_eq_ten {α : Type} (l : List α) (h : l.length = 10) :
    ∃ x1 x2 x3 x4 x5 x6 x7 x8 x9 x10,
      l = [x1, x2, x3, x4, x5, x6, x7, x8, x9, x10] := by
  rcases l with - | ⟨x1, l⟩; · simp at h
  rcases l with - | ⟨x2, l⟩; · simp at h
  rcases l with - | ⟨x3, l⟩; · simp at h
  rcases l with - | ⟨x4, l⟩; · simp at h
  rcases l with - | ⟨x5, l⟩; · simp at h
  rcases l with - | ⟨x6, l⟩; · simp at h
  rcases l with - | ⟨x7, l⟩; · simp at h
  rcases l with - | ⟨x8, l⟩; · simp at h
  rcases l with - | ⟨x9, l⟩; · simp at h
  rcases l with - | ⟨x10, l⟩; · simp at h
  rcases l with - | ⟨x11, l⟩
  · exact ⟨x1, x2, x3, x4, x5, x6, x7, x8, x9, x10, rfl⟩
  · simp only [List.length_cons] at h; omega

/-- Claim C8:  A record-0008 span made of the header line and two well-formed
instrument blocks — each spanning exactly *ten* consecutive lines — decodes
to exactly two entries keyed by the blocks' reported WRMC ids, and swapping
the block order produces the same two id-keyed entries (lookup by id gives
the same instrument either way). -/
theorem c8_two_instrument_blocks (hdr : List Char) (b1 b2 : List (List Char))
    (e1 e2 : RadInstr) (hl1 : b1.length = 10) (hl2 : b2.length = 10)
    (hp1 : parseInstrBlock b1 = .ok (e1, []))
    (hp2 : parseInstrBlock b2 = .ok (e2, []))
    (hne : e1.wrmc_id ≠ e2.wrmc_id) :
    parse_logical_record_0008 (hdr :: (b1 ++ b2)) =
      .ok [(e1.wrmc_id, e1), (e2.wrmc_id, e2)] ∧
    parse_logical_record_0008 (hdr :: (b2 ++ b1)) =
      .ok [(e2.wrmc_id, e2), (e1.wrmc_id, e1)] ∧
    List.lookup e1.wrmc_id [(e1.wrmc_id, e1), (e2.wrmc_id, e2)] = some e1 ∧
    List.lookup e2.wrmc_id [(e1.wrmc_id, e1), (e2.wrmc_id, e2)] = some e2 ∧
    List.lookup e1.wrmc_id [(e2.wrmc_id, e2), (e1.wrmc_id, e1)] = some e1 ∧
    List.lookup e2.wrmc_id [(e2.wrmc_id, e2), (e1.wrmc_id, e1)] = some e2 := by
  obtain ⟨x1, x2, x3, x4, x5, x6, x7, x8, x9, x10, rfl⟩ := length_eq_ten b1 hl1
  obtain ⟨y1, y2, y3, y4, y5, y6, y7, y8, y9, y10, rfl⟩ := length_eq_ten b2 hl2
  have hne' : e2.wrmc_id ≠ e1.wrmc_id := Ne.symm hne
  rcases m1r : parseInstrBlock10 x1 x2 x3 x4 x5 x6 x7 x8 x9 x10 with er | v1
  · simp only [parseInstrBlock, m1r, Except.map] at hp1
    exact absurd hp1 (by simp)
  · simp only [parseInstrBlock, m1r, Except.map, Except.ok.injEq,
      Prod.mk.injEq, and_true] at hp1
    subst hp1
    rcases m2r : parseInstrBlock10 y1 y2 y3 y4 y5 y6 y7 y8 y9 y10 with er | v2
    · simp only [parseInstrBlock, m2r, Except.map] at hp2
      exact absurd hp2 (by simp)
    · simp only [parseInstrBlock, m2r, Except.map, Except.ok.injEq,
        Prod.mk.injEq, and_true] at hp2
      subst hp2
      have hb1 : (v1.wrmc_id == v2.wrmc_id) = false :=
        beq_eq_false_iff_ne.mpr hne
      have hb2 : (v2.wrmc_id == v1.wrmc_id) = false :=
        beq_eq_false_iff_ne.mpr hne'
      refine ⟨?_, ?_, ?_, ?_, ?_, ?_⟩ <;>
        simp [parse_logical_record_0008, loop0008, m1r, m2r, dictInsert,
          List.lookup, hb1, hb2, hne, hne']

/-- Claim C8, witness:  Two concrete well-formed 10-line blocks, decoded in
both orders. -/
theorem c8_witness :
    parse_logical_record_0008
      ("*C0008".toList ::
        (exInstrBlock "1234".toList ++ exInstrBlock "5678".toList)) =
      .ok [(c8WitnessInstr1.wrmc_id, c8WitnessInstr1),
           (c8WitnessInstr2.wrmc_id, c8WitnessInstr2)] ∧
    parse_logical_record_0008
      ("*C0008".toList ::
        (exInstrBlock "5678".toList ++ exInstrBlock "1234".toList)) =
      .ok [(c8WitnessInstr2.wrmc_id, c8WitnessInstr2),
           (c8WitnessInstr1.wrmc_id, c8WitnessInstr1)] := by
  have h := c8_two_instrument_blocks "*C0008".toList
    (exInstrBlock "1234".toList) (exInstrBlock "5678".toList)
    c8WitnessInstr1 c8WitnessInstr2 (by decide) (by decide) rfl rfl (by decide)
  exact ⟨h.1, h.2.1⟩

/-- Claim C8, counterexample:  Eighteen lines after the header — two
"9-line" blocks, as the claim counts them — do not decode to two entries:
the first ten lines are consumed as one block and the remaining eight lines
cannot form another, so the decoder raises (`IndexError`), refuting the
claimed success. -/
theorem c8_counterexample :
    ((exInstrBlock "1234".toList).take 9 ++
        (exInstrBlock "5678".toList).take 9).length = 18 ∧
    parse_logical_record_0008
      ("*C0008".toList ::
        ((exInstrBlock "1234".toList).take 9 ++
          (exInstrBlock "5678".toList).take 9)) = .error .indexError := by
  constructor
  · decide
  · rfl

/-! ## All-NaN variables are dropped before assembly (C10) -/

theorem channelPairs_fst (c : Contents0100) :
    (channelPairs c).map Prod.fst = channelNames := rfl

theorem keys_nodup_val_unique {α β : Type} :
    ∀ (l : List (α × β)), (l.map Prod.fst).Nodup →
      ∀ (k : α) (a b : β), (k, a) ∈ l → (k, b) ∈ l → a = b := by
  intro l
  induction l with
  | nil => simp
  | cons hd rest ih =>
    intro hnd k a b ha hb
    simp only [List.map_cons, List.nodup_cons] at hnd
    rcases List.mem_cons.mp ha with rfl | ha' <;>
      rcases List.mem_cons.mp hb with hb' | hb'
    · exact congrArg Prod.snd hb'.symm
    · exact absurd (List.mem_map_of_mem Prod.fst hb') (by simpa using hnd.1)
    · rcases hb'
      exact absurd (List.mem_map_of_mem Prod.fst ha') (by simpa using hnd.1)
    · exact ih hnd.2 k a b ha' hb'

/-- Claim C10:  An all-NaN decoded variable is silently removed before
assembly: generically, any entry whose array is entirely missing does not
survive the `np.all(np.isnan(...))` filter; and through the record-0100
pipeline, such a variable's name appears neither among the kept per-record
contents nor (under its translated short name) among the columns of the
`values` table. -/
theorem c10_all_nan_dropped :
    (∀ (l : List (List Char × List (Option ℚ))) (k : List Char)
       (v : List (Option ℚ)), v.all (fun x => x.isNone) = true →
       (k, v) ∉ drop_all_nan l) ∧
    (∀ (txt_data : List (List Char)) (c : Contents0100),
      parse_logical_record_0100 txt_data = .ok c →
      ∀ (k : List Char) (v : List (Option ℚ)), (k, v) ∈ channelPairs c →
        v.all (fun x => x.isNone) = true →
        k ∉ (drop_all_nan (channelPairs c)).map Prod.fst ∧
        translateVarname k ∉
          (series_of (drop_all_nan (channelPairs c))).map Prod.fst) := by
  have hgen : ∀ (l : List (List Char × List (Option ℚ))) (k : List Char)
      (v : List (Option ℚ)), v.all (fun x => x.isNone) = true →
      (k, v) ∉ drop_all_nan l := by
    intro l k v hnan hmem
    rw [drop_all_nan, List.mem_filter] at hmem
    simp only [hnan] at hmem
    exact absurd hmem.2 (by simp)
  refine ⟨hgen, ?_⟩
  intro txt_data c _ k v hmem hnan
  have hnd : ((channelPairs c).map Prod.fst).Nodup := by
    rw [channelPairs_fst]
    decide
  have hkeys : ∀ v', (k, v') ∈ channelPairs c → v' = v :=
    fun v' hv' => keys_nodup_val_unique (channelPairs c) hnd k v' v hv' hmem
  have hnotkept : k ∉ (drop_all_nan (channelPairs c)).map Prod.fst := by
    intro hk
    simp only [List.mem_map] at hk
    obtain ⟨⟨k', v'⟩, hkv', hfst⟩ := hk
    simp only at hfst
    rw [hfst] at hkv'
    have hvc : (k, v') ∈ channelPairs c :=
      List.mem_of_mem_filter hkv'
    rw [hkeys v' hvc] at hkv'
    exact hgen (channelPairs c) k v hnan hkv'
  refine ⟨hnotkept, ?_⟩
  intro htr
  simp only [series_of, List.map_filterMap, List.mem_filterMap] at htr
  obtain ⟨⟨k', v'⟩, hkv', hopt⟩ := htr
  have hk'mem : (k', v') ∈ channelPairs c := List.mem_of_mem_filter hkv'
  have hk'names : k' ∈ channelNames := by
    rw [← channelPairs_fst c]
    exact List.mem_map_of_mem Prod.fst hk'mem
  have hknames : k ∈ channelNames := by
    rw [← channelPairs_fst c]
    exact List.mem_map_of_mem Prod.fst hmem
  have htreq : translateVarname k' = translateVarname k := by
    split at hopt
    · exact absurd hopt (by simp)
    · simpa using hopt
  have hinj : k' = k := by
    have hmapnd : (channelNames.map translateVarname).Nodup := by decide
    exact List.inj_on_of_nodup_map hmapnd hk'names hknames htreq
  subst hinj
  exact hnotkept (List.mem_map_of_mem Prod.fst hkv')

/-- Claim C10, witness: -/
theorem c10_witness :
    "direct_normal".toList ∉
      (drop_all_nan (channelPairs c10WitnessContents)).map Prod.fst ∧
    translateVarname "direct_normal".toList ∉
      (series_of (drop_all_nan (channelPairs c10WitnessContents))).map Prod.fst :=
  (c10_all_nan_dropped.2 c10WitnessTxt c10WitnessContents (by decide)
    "direct_normal".toList [none] (by decide) (by decide))

/-! ## Time centering and the interpolation cap (C5) -/

theorem interpGo_fst :
    ∀ (l : List (ℤ × Option ℚ)) (prev : Option (ℤ × ℚ)),
      (interpGo prev l).map Prod.fst = l.map Prod.fst := by
  intro l
  induction l with
  | nil => intro prev; rfl
  | cons hd rest ih =>
    intro prev
    rcases hd with ⟨t, v⟩
    rcases v with - | v
    · rcases prev with - | ⟨t1, v1⟩ <;> simp [interpGo, ih]
    · simp [interpGo, ih]

theorem interpGo_second_none :
    ∀ (pre : List (ℤ × Option ℚ)) (prev : Option (ℤ × ℚ)) (t1 t2 : ℤ)
      (rest : List (ℤ × Option ℚ)),
      (interpGo prev (pre ++ (t1, none) :: (t2, none) :: rest))[pre.length + 1]?
        = some (t2, none) := by
  intro pre
  induction pre with
  | nil =>
    intro prev t1 t2 rest
    rcases prev with - | ⟨ta, va⟩ <;> simp [interpGo]
  | cons hd pre' ih =>
    intro prev t1 t2 rest
    rcases hd with ⟨t, v⟩
    rcases v with - | v
    · rcases prev with - | ⟨ta, va⟩ <;>
        simpa [interpGo, List.getElem?_cons_succ] using ih none t1 t2 rest
    · simpa [interpGo, List.getElem?_cons_succ] using ih (some (t, v)) t1 t2 rest

theorem lookup_of_first :
    ∀ (l : List (ℤ × Option ℚ)) (i : ℕ) (t : ℤ) (v : Option ℚ),
      l[i]? = some (t, v) →
      (∀ (j : ℕ) (q : ℤ × Option ℚ), j < i → l[j]? = some q → q.1 ≠ t) →
      l.lookup t = some v := by
  intro l
  induction l with
  | nil => simp
  | cons hd rest ih =>
    intro i t v hget hfirst
    match i with
    | 0 =>
      simp only [List.getElem?_cons_zero, Option.some.injEq] at hget
      subst hget
      simp [List.lookup]
    | i' + 1 =>
      have hne : hd.1 ≠ t :=
        hfirst 0 hd (by omega) List.getElem?_cons_zero
      rcases hd with ⟨t0, v0⟩
      have hb : (t == t0) = false := beq_eq_false_iff_ne.mpr (Ne.symm hne)
      simp only [List.lookup, hb]
      exact ih i' t v (by simpa [List.getElem?_cons_succ] using hget)
        (fun j q hj hq => hfirst (j + 1) q (by omega)
          (by simpa [List.getElem?_cons_succ] using hq))

theorem dropDupFirst_lookup :
    ∀ (l : List (ℤ × Option ℚ)) (seen : List ℤ) (t : ℤ), t ∉ seen →
      (dropDupFirst l seen).lookup t = l.lookup t := by
  intro l
  induction l with
  | nil => intro seen t _; rfl
  | cons hd rest ih =>
    intro seen t ht
    rcases hd with ⟨t0, v0⟩
    by_cases hseen : t0 ∈ seen
    · have hne : t ≠ t0 := fun hcontra => ht (hcontra ▸ hseen)
      have hb : (t == t0) = false := beq_eq_false_iff_ne.mpr hne
      simp only [dropDupFirst, if_pos hseen, List.lookup, hb]
      exact ih seen t ht
    · simp only [dropDupFirst, if_neg hseen]
      by_cases heq : t0 = t
      · subst heq
        simp [List.lookup]
      · have hb : (t == t0) = false :=
          beq_eq_false_iff_ne.mpr (fun h => heq h.symm)
        simp only [List.lookup, hb]
        refine ih (t0 :: seen) t ?_
        simp only [List.mem_cons, not_or]
        exact ⟨fun h => heq h.symm, ht⟩

/-- Claim C5:  When time centering is enabled every raw timestamp is shifted
by exactly +30 seconds; and the regular-grid reconstruction fills at most
the *first* missing grid point of any gap: a missing point whose immediate
predecessor in the extended (sorted, reindexed) series is also missing is
never filled by the `limit=1` interpolation, so in a gap wider than one
missing step everything after the gap's first point stays missing. -/
theorem c5_centering_and_interpolation_cap :
    (∀ (values : List (ℤ × Option ℚ)) (t : ℤ) (x : Option ℚ),
      (t, x) ∈ values → (t + 30, x) ∈ center_timestamps values) ∧
    (∀ (data : List (ℤ × Option ℚ)) (grid : List ℤ)
       (pre rest : List (ℤ × Option ℚ)) (t1 t2 : ℤ) (j : ℕ),
      extendedSeries data grid = pre ++ (t1, none) :: (t2, none) :: rest →
      (∀ q ∈ pre, q.1 ≠ t2) → t1 ≠ t2 → grid[j]? = some t2 →
      (time_interpolation data grid)[j]? = some (t2, none)) := by
  constructor
  · intro values t x hmem
    exact List.mem_map_of_mem (fun p => (p.1 + 30, p.2)) hmem
  · intro data grid pre rest t1 t2 j hext hpre ht12 hgrid
    have hval : (interpGo none (extendedSeries data grid))[pre.length + 1]? =
        some (t2, none) := by
      rw [hext]
      exact interpGo_second_none pre none t1 t2 rest
    have hfst : ∀ (j' : ℕ) (q : ℤ × Option ℚ), j' < pre.length + 1 →
        (interpGo none (extendedSeries data grid))[j']? = some q → q.1 ≠ t2 := by
      intro j' q hj' hq
      have hmap : ((interpGo none (extendedSeries data grid)).map Prod.fst)[j']? =
          ((extendedSeries data grid).map Prod.fst)[j']? := by
        rw [interpGo_fst]
      rw [List.getElem?_map, List.getElem?_map, hq] at hmap
      rcases Nat.lt_or_ge j' pre.length with hlt | hge
      · have h2 : (extendedSeries data grid)[j']? = pre[j']? := by
          rw [hext, List.getElem?_append]
          simp [hlt]
        rw [h2] at hmap
        rcases hp : pre[j']? with - | q'
        · rw [hp] at hmap
          simp at hmap
        · rw [hp] at hmap
          simp only [Option.map_some', Option.some.injEq] at hmap
          rw [hmap]
          exact hpre q' (List.getElem?_mem hp)
      · have hj'eq : j' = pre.length := by omega
        subst hj'eq
        have h2 : (extendedSeries data grid)[pre.length]? = some (t1, none) := by
          rw [hext, List.getElem?_append_right (le_refl _)]
          simp
        rw [h2] at hmap
        simp only [Option.map_some', Option.some.injEq] at hmap
        rw [hmap]
        exact ht12
    have hlook : (interpGo none (extendedSeries data grid)).lookup t2 =
        some none :=
      lookup_of_first _ (pre.length + 1) t2 none hval hfst
    have hdrop : (dropDupFirst (interpGo none (extendedSeries data grid)) []).lookup
        t2 = some none := by
      rw [dropDupFirst_lookup _ [] t2 (by simp)]
      exact hlook
    simp only [time_interpolation, reindexTo, List.getElem?_map, hgrid,
      Option.map_some]
    simp [lookupValue, hdrop]

/-- Claim C5, counterexample:  Raw samples 3 minutes apart on a 1-minute grid
(a gap of two missing steps): the first missing grid point (t = 60) *is*
filled by time interpolation (value 1), contradicting the claim that no
value in a gap wider than one missing step is ever filled; the second
missing point stays missing. -/
theorem c5_counterexample :
    time_interpolation [(0, some 0), (180, some 3)] [0, 60, 120, 180] =
      [(0, some 0), (60, some 1), (120, none), (180, some 3)] := by
  decide

/-- Claim C5, witness:  The centering shift on a concrete sample, and the cap
on a concrete 4-minute gap: the point after the gap's first missing step
stays missing. -/
theorem c5_witness :
    ((0 + 30 : ℤ), (some 0 : Option ℚ)) ∈ center_timestamps [(0, some 0)] ∧
    (time_interpolation [(0, some 0), (240, some 4)]
      [0, 60, 120, 180, 240])[2]? = some (120, none) :=
  ⟨c5_centering_and_interpolation_cap.1 [(0, some 0)] 0 (some 0) (by decide),
   c5_centering_and_interpolation_cap.2 [(0, some 0), (240, some 4)]
     [0, 60, 120, 180, 240] [(0, some 0), (0, some 0)]
     [(180, none), (240, some 4), (240, some 4)] 60 120 2
     (by decide) (by decide) (by decide) (by decide)⟩

end BSRN
